import Mathlib

/-!
Verification of the event-replay / state-reconstruction engine of
`plot_hsr.py` (hsm-utils).  The Python program is shallowly embedded:

* the untyped JSON values that can reach the engine are modelled by `Val`
  together with Python truthiness (`Val.truthy`);
* the per-channel parallel lists `plot_data['time']` / `plot_data['value']`
  are modelled as a single list of pairs — every mutation in the source
  appends to both lists in lockstep, so the pair representation is exact;
* Python's stable `sorted` (Timsort) is modelled by a stable insertion
  sort `sortLe`; a stable sort is extensionally determined by the
  comparison, so this is faithful;
* runtime errors that the dispatcher can raise (IndexError on `path[1]`
  for a one-segment path, IndexError on `value[-1]` of an empty series,
  and type confusion) are modelled by `Except EngErr`;
* numbers (timestamps, intensities, offsets, durations) are rationals,
  which embed the Python ints and floats that conforming documents carry.
-/

/-- JSON-ish runtime value as the engine can observe it, restricted to
the shapes the input contract admits; `channelPair` is the two-element
boolean array carried by channel-mask values. -/
inductive Val where
  | num (q : ℚ)
  | bool (b : Bool)
  | str (s : String)
  | channelPair (a b : Bool)
  | null
deriving DecidableEq, Repr

/-- Python truthiness of a value (used by `if g1_initial_mode:`); a
two-element array is always truthy. -/
def Val.truthy : Val → Bool
  | .num q => decide (q ≠ 0)
  | .bool b => b
  | .str s => decide (s ≠ "")
  | .channelPair _ _ => true
  | .null => false

/-- One raw event of the input `data` list: `event.get('ts')`,
`event.get('path', [])`, `event.get('value')`, `event.get('type')`. -/
structure RawEvent where
  ts : Option ℚ
  path : List String
  value : Val
  type : Option String
deriving DecidableEq, Repr

/-- Per-generator slice of `initialContext` (all fields optional). -/
structure GenInit where
  intensity : Option ℚ
  adjust : Option ℚ
  mode : Option Val
deriving DecidableEq, Repr

/-- The `boost` slice of `initialContext` (all fields optional). -/
structure BoostInit where
  shockMode : Option Bool
  channels : Option (Bool × Bool)
  duration : Option ℚ
  offset : Option ℚ
deriving DecidableEq, Repr

/-- The input document, as consumed by `process_stimulation_data`:
`metadata.duration`, `initialContext.generator1/2`, `initialContext.boost`
and the raw event list `data`. -/
structure InputDoc where
  duration : Option ℚ
  gen1 : GenInit
  gen2 : GenInit
  boost : BoostInit
  events : List RawEvent
deriving DecidableEq, Repr

/-- Per-channel mutable state: `base_intensity`, `plot_data`,
`adjust_value`, `adjust_plot_data` (time/value lists fused into pairs). -/
structure GenState where
  base_intensity : ℚ
  plot_data : List (ℚ × ℚ)
  adjust_value : ℚ
  adjust_plot_data : List (ℚ × ℚ)
deriving DecidableEq, Repr

/-- The `state['boost']` record. -/
structure BoostState where
  shockMode : Bool
  channels : Bool × Bool
  duration : ℚ
  offset : ℚ
deriving DecidableEq, Repr

/-- The whole engine state built by `process_stimulation_data`. -/
structure EngineState where
  g1 : GenState
  g2 : GenState
  boost : BoostState
  modes_g1 : List (ℚ × Val)
  modes_g2 : List (ℚ × Val)
  fire_events : List (ℚ × (Bool × Bool))
deriving DecidableEq, Repr

/-- Channel identifier, `'g1'` / `'g2'` in the source. -/
inductive GenId where
  | g1
  | g2
deriving DecidableEq, Repr

/-- First path segment naming a generator channel. -/
def genName : GenId → String
  | .g1 => "generator1"
  | .g2 => "generator2"

/-- Read of `state['boost']['channels'][i]`, `i = 0` for g1, `1` for g2. -/
def maskGet (m : Bool × Bool) : GenId → Bool
  | .g1 => m.1
  | .g2 => m.2

/-- Read of `state[gen_key]`. -/
def EngineState.gen (s : EngineState) : GenId → GenState
  | .g1 => s.g1
  | .g2 => s.g2

/-- Write of `state[gen_key]`. -/
def EngineState.setGen (s : EngineState) (gk : GenId) (g : GenState) : EngineState :=
  match gk with
  | .g1 => { s with g1 := g }
  | .g2 => { s with g2 := g }

/-- Read of `state['modes'][gen_key]`. -/
def EngineState.getModes (s : EngineState) : GenId → List (ℚ × Val)
  | .g1 => s.modes_g1
  | .g2 => s.modes_g2

/-- Write of `state['modes'][gen_key]`. -/
def EngineState.setModes (s : EngineState) (gk : GenId) (m : List (ℚ × Val)) : EngineState :=
  match gk with
  | .g1 => { s with modes_g1 := m }
  | .g2 => { s with modes_g2 := m }

/-- Runtime errors the event loop can raise. -/
inductive EngErr where
  | pathIndex
  | typeErr
  | emptySeries
deriving DecidableEq, Repr

/-- Last element of a series, i.e. the Python read `xs[-1]` (as an
option; the concrete Python read raises IndexError on an empty list). -/
def lastSample : List (ℚ × ℚ) → Option (ℚ × ℚ)
  | [] => none
  | [p] => some p
  | _ :: q :: ps => lastSample (q :: ps)

/-- State initialization of `process_stimulation_data` (source lines
52–99): defaults, the time-0 seed samples, the boost record seeded
field-by-field, and the initial mode timelines guarded by truthiness. -/
def initState (data : InputDoc) : EngineState :=
  let g1_bi := data.gen1.intensity.getD 0
  let g2_bi := data.gen2.intensity.getD 0
  let g1_adj := data.gen1.adjust.getD 50
  let g2_adj := data.gen2.adjust.getD 50
  { g1 := { base_intensity := g1_bi, plot_data := [((0 : ℚ), g1_bi)],
            adjust_value := g1_adj, adjust_plot_data := [((0 : ℚ), g1_adj)] },
    g2 := { base_intensity := g2_bi, plot_data := [((0 : ℚ), g2_bi)],
            adjust_value := g2_adj, adjust_plot_data := [((0 : ℚ), g2_adj)] },
    boost := { shockMode := data.boost.shockMode.getD false,
               channels := data.boost.channels.getD (false, false),
               duration := data.boost.duration.getD (1 / 10),
               offset := data.boost.offset.getD 0 },
    modes_g1 := match data.gen1.mode with
      | some v => if v.truthy then [((0 : ℚ), v)] else []
      | none => [],
    modes_g2 := match data.gen2.mode with
      | some v => if v.truthy then [((0 : ℚ), v)] else []
      | none => [],
    fire_events := [] }

/-- Stable insertion into a list: the new element goes before the first
element it compares `le` to, hence after every strictly smaller one. -/
def insLe (le : α → α → Bool) (a : α) : List α → List α
  | [] => [a]
  | b :: bs => if le a b then a :: b :: bs else b :: insLe le a bs

/-- Stable sort (model of Python `sorted`, which is stable). -/
def sortLe (le : α → α → Bool) (l : List α) : List α :=
  l.foldr (insLe le) []

/-- Sort key used on events: `x.get('ts', 0)`. -/
def tsKey (e : RawEvent) : ℚ := e.ts.getD 0

/-- Comparison used to sort events, `key=lambda x: x.get('ts', 0)`. -/
def tsLe (e f : RawEvent) : Bool := decide (tsKey e ≤ tsKey f)

/-- The sorted event list `all_events` (source line 103). -/
def all_events (data : InputDoc) : List RawEvent :=
  sortLe tsLe data.events

/-- Python `min` on two numbers, written out so it computes by kernel
reduction. -/
def minQ (a b : ℚ) : ℚ := if a ≤ b then a else b

/-- Python `max` on two numbers, written out so it computes by kernel
reduction. -/
def maxQ (a b : ℚ) : ℚ := if a ≤ b then b else a

/-- Sample append to `plot_data` (both parallel lists at once). -/
def appendSample (g : GenState) (t v : ℚ) : GenState :=
  { g with plot_data := g.plot_data ++ [(t, v)] }

/-- Shock-flag transition body (source lines 129–138): for each affected
channel append `(ts, 0)` when entering shock, `(ts, base_intensity)` when
leaving. -/
def shockTransition (s : EngineState) (ts : ℚ) (entering : Bool) : EngineState :=
  let s1 := if maskGet s.boost.channels .g1 then
    { s with g1 := appendSample s.g1 ts (if entering then 0 else s.g1.base_intensity) }
  else s
  if maskGet s1.boost.channels .g2 then
    { s1 with g2 := appendSample s1.g2 ts (if entering then 0 else s1.g2.base_intensity) }
  else s1

/-- Fire handling for a single affected channel (source lines 149–164):
a shock pulse `(ts, base)(ts+duration*1000, 0)`, or a 1 ms boost pulse to
`min 100 (base + offset)` and back to the last series value (whose read
`value[-1]` raises on an empty series). -/
def fireGen (b : BoostState) (ts : ℚ) (g : GenState) : Except EngErr GenState :=
  if b.shockMode then
    let duration_ms := b.duration * 1000
    .ok { g with plot_data := g.plot_data ++ [(ts, g.base_intensity), (ts + duration_ms, 0)] }
  else
    let boosted_val := minQ 100 (g.base_intensity + b.offset)
    match lastSample g.plot_data with
    | none => .error .emptySeries
    | some last =>
      .ok { g with plot_data := g.plot_data ++ [(ts, boosted_val), (ts + 1, last.2)] }

/-- Fire handling of one loop iteration over a channel (source lines
147–164): pulse the channel when the main mask selects it. -/
def fireChan (s : EngineState) (ts : ℚ) (gk : GenId) : Except EngErr EngineState :=
  if maskGet s.boost.channels gk then
    (fireGen s.boost ts (s.gen gk)).map (fun g => s.setGen gk g)
  else .ok s

/-- Fire-event handling (source lines 143–164): record the marker from
the running mask copy, then pulse each channel selected by the main
`state['boost']['channels']`. -/
def fireStep (s : EngineState) (cur : Bool × Bool) (ts : ℚ) : Except EngErr EngineState :=
  match fireChan { s with fire_events := s.fire_events ++ [(ts, cur)] } ts .g1 with
  | .error e => .error e
  | .ok s1 =>
    match fireChan s1 ts .g2 with
    | .error e => .error e
    | .ok s2 => .ok s2

/-- Handling of a `boost.*` event given `prop = path[1]` (source lines
118–164). -/
def boostStep (s : EngineState) (cur : Bool × Bool) (ts : ℚ) (prop : String)
    (value : Val) (ty : Option String) : Except EngErr (EngineState × (Bool × Bool)) :=
  if prop = "channels" then
    match value with
    | .channelPair a b =>
      .ok ({ s with boost := { s.boost with channels := (a, b) } }, (a, b))
    | _ => .error .typeErr
  else if prop = "shockMode" then
    match value with
    | .bool v =>
      if s.boost.shockMode ≠ v then
        .ok (shockTransition { s with boost := { s.boost with shockMode := v } } ts v, cur)
      else
        .ok ({ s with boost := { s.boost with shockMode := v } }, cur)
    | _ => .error .typeErr
  else if prop = "duration" then
    match value with
    | .num q => .ok ({ s with boost := { s.boost with duration := q } }, cur)
    | _ => .error .typeErr
  else if prop = "offset" then
    match value with
    | .num q => .ok ({ s with boost := { s.boost with offset := q } }, cur)
    | _ => .error .typeErr
  else if prop = "fire" ∧ ty = some "action" then
    (fireStep s cur ts).map (fun s2 => (s2, cur))
  else
    .ok (s, cur)

/-- Handling of a `generator1.*` / `generator2.*` event (source lines
167–182): intensity updates `base_intensity` always and appends to the
series only outside masked shock; mode appends unconditionally; adjust
updates value and series. -/
def genStep (s : EngineState) (cur : Bool × Bool) (ts : ℚ) (gk : GenId)
    (prop : String) (value : Val) : Except EngErr (EngineState × (Bool × Bool)) :=
  if prop = "intensity" then
    match value with
    | .num v =>
      let s1 := s.setGen gk { s.gen gk with base_intensity := v }
      let is_in_shock := s1.boost.shockMode && maskGet s1.boost.channels gk
      if is_in_shock then .ok (s1, cur)
      else .ok (s1.setGen gk (appendSample (s1.gen gk) ts v), cur)
    | _ => .error .typeErr
  else if prop = "mode" then
    .ok (s.setModes gk (s.getModes gk ++ [(ts, value)]), cur)
  else if prop = "adjust" then
    match value with
    | .num v =>
      let g := s.gen gk
      .ok (s.setGen gk { g with adjust_value := v,
                                adjust_plot_data := g.adjust_plot_data ++ [(ts, v)] }, cur)
    | _ => .error .typeErr
  else
    .ok (s, cur)

/-- One iteration of the event loop (source lines 108–182).  Events with
a missing timestamp or an empty path are skipped; recognized first
segments with a one-segment path reproduce the `path[1]` index error. -/
def dispatchEvent (s : EngineState) (cur : Bool × Bool) (e : RawEvent) :
    Except EngErr (EngineState × (Bool × Bool)) :=
  match e.ts with
  | none => .ok (s, cur)
  | some ts =>
    match e.path with
    | [] => .ok (s, cur)
    | p0 :: rest =>
      if p0 = "boost" then
        match rest with
        | [] => .error .pathIndex
        | prop :: _ => boostStep s cur ts prop e.value e.type
      else if p0 = "generator1" ∨ p0 = "generator2" then
        match rest with
        | [] => .error .pathIndex
        | prop :: _ =>
          genStep s cur ts (if p0 = "generator1" then .g1 else .g2) prop e.value
      else
        .ok (s, cur)

/-- The event loop itself. -/
def runEvents : EngineState → (Bool × Bool) → List RawEvent →
    Except EngErr (EngineState × (Bool × Bool))
  | s, cur, [] => .ok (s, cur)
  | s, cur, e :: es =>
    match dispatchEvent s cur e with
    | .error err => .error err
    | .ok (s2, cur2) => runEvents s2 cur2 es

/-- Maximum `ts` over the raw (unsorted) event list, `max(event.get('ts',
0) for event in data['data'])` guarded by emptiness (source lines
186–188). -/
def maxTsInData (events : List RawEvent) : ℚ :=
  match events with
  | [] => 0
  | e :: es => es.foldl (fun m f => maxQ m (tsKey f)) (tsKey e)

/-- Session bound (source line 189): `max(metadata duration, max ts)`. -/
def total_duration_ms (data : InputDoc) : ℚ :=
  maxQ (data.duration.getD 0) (maxTsInData data.events)

/-- Trailing extension of `adjust_plot_data` (source lines 192–195). -/
def extendAdjust (dur : ℚ) (g : GenState) : GenState :=
  match lastSample g.adjust_plot_data with
  | some last =>
    if last.1 < dur then
      { g with adjust_plot_data := g.adjust_plot_data ++ [(dur, g.adjust_value)] }
    else g
  | none => g

/-- Comparison realized by `sorted(zip(time, value))`: Python tuple
order, lexicographic on (time, value). -/
def pairLe (p q : ℚ × ℚ) : Bool :=
  decide (p.1 < q.1) || (decide (p.1 = q.1) && decide (p.2 ≤ q.2))

/-- Comparison following the spec words only: a stable sort purely by
timestamp, ignoring the sample value.  This is NOT what the source does;
it exists to compare the spec sentence against the code. -/
def specStableTsLe (p q : ℚ × ℚ) : Bool :=
  decide (p.1 ≤ q.1)

/-- Final per-channel sort of both series (source lines 199–214). -/
def finalizeGen (g : GenState) : GenState :=
  { g with plot_data := sortLe pairLe g.plot_data,
           adjust_plot_data := sortLe pairLe g.adjust_plot_data }

/-- Initialization, event replay and adjust-series extension — the state
just before the final sort. -/
def dispatchPhase (data : InputDoc) : Except EngErr EngineState :=
  let s0 := initState data
  match runEvents s0 s0.boost.channels (all_events data) with
  | .error err => .error err
  | .ok (s1, _) =>
    let dur := total_duration_ms data
    .ok { s1 with g1 := extendAdjust dur s1.g1, g2 := extendAdjust dur s1.g2 }

/-- Sort step applied to both channels. -/
def finalizeState (s : EngineState) : EngineState :=
  { s with g1 := finalizeGen s.g1, g2 := finalizeGen s.g2 }

/-- The whole engine, source lines 41–216. -/
def process_stimulation_data (data : InputDoc) : Except EngErr EngineState :=
  (dispatchPhase data).map finalizeState

/-- Paths on which the dispatcher cannot hit the `path[1]` index error:
empty paths and paths of two or more segments are always safe, and a
one-segment path is safe exactly when its head is not a recognized
namespace. -/
def pathOk (e : RawEvent) : Bool :=
  match e.path with
  | [] => true
  | [p0] => !(p0 = "boost" || p0 = "generator1" || p0 = "generator2")
  | _ :: _ :: _ => true

/-- Events whose value has the runtime type the addressed handler
expects (the shape the input contract declares). -/
def wellTyped (e : RawEvent) : Bool :=
  match e.path with
  | p0 :: p1 :: _ =>
    if p0 = "boost" then
      if p1 = "channels" then
        match e.value with
        | .channelPair _ _ => true
        | _ => false
      else if p1 = "shockMode" then
        match e.value with
        | .bool _ => true
        | _ => false
      else if p1 = "duration" || p1 = "offset" then
        match e.value with
        | .num _ => true
        | _ => false
      else true
    else if p0 = "generator1" || p0 = "generator2" then
      if p1 = "intensity" || p1 = "adjust" then
        match e.value with
        | .num _ => true
        | _ => false
      else true
    else true
  | _ => true

/-- Checker for the series-nonemptiness invariant: an event-loop outcome
is acceptable when it is not the empty-series index error, and any
successful state keeps both channels' `plot_data` non-empty. -/
def seriesOk : Except EngErr (EngineState × (Bool × Bool)) → Bool
  | .error .emptySeries => false
  | .error _ => true
  | .ok (s, _) => !s.g1.plot_data.isEmpty && !s.g2.plot_data.isEmpty

/-- Checker singling out the empty-series error of a whole run. -/
def notEmptySeriesErr : Except EngErr EngineState → Bool
  | .error .emptySeries => false
  | _ => true

/-! ### CLI surface model (source lines 219–241 and 328–334) -/

/-- Outcome of the input-loading attempt in `plot_stimulation_data`:
the file may be missing, the JSON may fail to decode, or a document is
obtained. -/
inductive LoadResult where
  | fileNotFound
  | jsonError
  | okDoc (doc : InputDoc)

/-- Error text the process can emit: nothing, the single `print` line of
an except handler (or of the usage check), or the interpreter traceback
of an uncaught exception. -/
inductive CliDiag where
  | silent
  | oneLine
  | traceback
deriving DecidableEq, Repr

/-- Observable effect of one `plot_stimulation_data` call (source lines
230–241): only `open`/`json.load` are inside the try block, so a load
error prints one diagnostic line and returns normally, while
`process_stimulation_data(data)` on line 241 runs outside the try and
an engine error escapes the function as an uncaught exception; when the
engine completes, the plot is rendered and written. -/
inductive PlotOutcome where
  | loadErrorReturn
  | uncaughtException (err : EngErr)
  | rendered (s : EngineState)
deriving DecidableEq, Repr

/-- The `plot_stimulation_data` control flow on a given load outcome. -/
def plot_stimulation_data (load : LoadResult) : PlotOutcome :=
  match load with
  | .fileNotFound => .loadErrorReturn
  | .jsonError => .loadErrorReturn
  | .okDoc doc =>
    match process_stimulation_data doc with
    | .error err => .uncaughtException err
    | .ok s => .rendered s

/-- Observable outcome of the whole program: process exit status, what
error text was printed, and whether the output image was written. -/
structure CliOutcome where
  exitCode : Nat
  diag : CliDiag
  wroteImage : Bool
deriving DecidableEq, Repr

/-- Entry point model (source lines 328–334): fewer than three argv
entries print the one-line usage message and exit with status 1;
otherwise `plot_stimulation_data` runs — a load error returns normally
so the interpreter exits 0, an exception raised by the engine escapes
`__main__` so the interpreter prints a traceback and exits 1, and on
success the image is written and the process exits 0. -/
def mainEntry (argc : Nat) (load : LoadResult) : CliOutcome :=
  if argc < 3 then { exitCode := 1, diag := .oneLine, wroteImage := false }
  else
    match plot_stimulation_data load with
    | .loadErrorReturn => { exitCode := 0, diag := .oneLine, wroteImage := false }
    | .uncaughtException _ => { exitCode := 1, diag := .traceback, wroteImage := false }
    | .rendered _ => { exitCode := 0, diag := .silent, wroteImage := true }

/-- Lexicographic sortedness of a series: the order the finalizer's
`sorted(zip(time, value))` establishes. -/
def lexSorted (l : List (ℚ × ℚ)) : Prop :=
  l.Pairwise (fun p q => pairLe p q = true)

/-- Non-decreasing timestamps along a series. -/
def tsMono (l : List (ℚ × ℚ)) : Prop :=
  l.Pairwise (fun p q => p.1 ≤ q.1)

/-- Initial-context slice with every field absent. -/
def emptyGenInit : GenInit := ⟨none, none, none⟩

/-- Boost initial-context slice with every field absent. -/
def emptyBoostInit : BoostInit := ⟨none, none, none, none⟩

/-- Document with two same-timestamp intensity updates whose values
arrive in decreasing order — the probe for the finalizer's tie order. -/
def docC1 : InputDoc :=
  ⟨none, emptyGenInit, emptyGenInit, emptyBoostInit,
    [⟨some 5, ["generator1", "intensity"], .num 60, none⟩,
     ⟨some 5, ["generator1", "intensity"], .num 40, none⟩]⟩

/-- The engine state after dispatch and adjust extension on `docC1`,
before the final sort.  Its g1 series holds the appended samples in
insertion order. -/
def uC1 : EngineState :=
  { g1 := { base_intensity := 40, plot_data := [(0, 0), (5, 60), (5, 40)],
            adjust_value := 50, adjust_plot_data := [(0, 50), (5, 50)] },
    g2 := { base_intensity := 0, plot_data := [(0, 0)],
            adjust_value := 50, adjust_plot_data := [(0, 50), (5, 50)] },
    boost := { shockMode := false, channels := (false, false), duration := 1 / 10, offset := 0 },
    modes_g1 := [], modes_g2 := [], fire_events := [] }

/-- Document holding one event whose path is the single segment
`boost`, which drives the dispatcher into the `path[1]` index error. -/
def docC2bad : InputDoc :=
  ⟨none, emptyGenInit, emptyGenInit, emptyBoostInit,
    [⟨some 0, ["boost"], .null, none⟩]⟩

/-- Document whose events all have safe paths and contract-conforming
values (one of them with an unrecognized first segment). -/
def docC2w : InputDoc :=
  ⟨none, emptyGenInit, emptyGenInit, emptyBoostInit,
    [⟨some 1, ["telemetry", "x"], .null, none⟩,
     ⟨some 2, ["generator1", "intensity"], .num 55, none⟩]⟩

/-- A concrete engine state used to exercise the ignore branches. -/
def stateC2w : EngineState := initState docC2w

/-- State with shock mode active and channel g1 masked. -/
def sC3 : EngineState :=
  { g1 := { base_intensity := 20, plot_data := [(0, 20)],
            adjust_value := 50, adjust_plot_data := [(0, 50)] },
    g2 := { base_intensity := 30, plot_data := [(0, 30)],
            adjust_value := 50, adjust_plot_data := [(0, 50)] },
    boost := { shockMode := true, channels := (true, false), duration := 2, offset := 0 },
    modes_g1 := [], modes_g2 := [], fire_events := [] }

/-- State with no channel selected by the override mask. -/
def sC4 : EngineState :=
  { g1 := { base_intensity := 10, plot_data := [(0, 10)],
            adjust_value := 50, adjust_plot_data := [(0, 50)] },
    g2 := { base_intensity := 15, plot_data := [(0, 15)],
            adjust_value := 50, adjust_plot_data := [(0, 50)] },
    boost := { shockMode := false, channels := (false, false), duration := 2, offset := 0 },
    modes_g1 := [], modes_g2 := [], fire_events := [] }

/-- The state `sC4` after a fire event at time 7. -/
def sC4' : EngineState := { sC4 with fire_events := [((7 : ℚ), (false, false))] }

/-- Event with no timestamp, skipped by the loop. -/
def evNoop : RawEvent := ⟨none, [], .null, none⟩

/-- Document with no events and an empty initial context. -/
def docC5w : InputDoc := ⟨none, emptyGenInit, emptyGenInit, emptyBoostInit, []⟩

/-- The engine output on `docC5w`. -/
def sC5res : EngineState :=
  { g1 := { base_intensity := 0, plot_data := [(0, 0)],
            adjust_value := 50, adjust_plot_data := [(0, 50)] },
    g2 := { base_intensity := 0, plot_data := [(0, 0)],
            adjust_value := 50, adjust_plot_data := [(0, 50)] },
    boost := { shockMode := false, channels := (false, false), duration := 1 / 10, offset := 0 },
    modes_g1 := [], modes_g2 := [], fire_events := [] }

/-- Document with a negative declared duration and a single event whose
timestamp is negative as well. -/
def docC6 : InputDoc :=
  ⟨some (-5), emptyGenInit, emptyGenInit, emptyBoostInit,
    [⟨some (-3), ["x", "y"], .null, none⟩]⟩

/-- Event at time 7 of `docC6w`. -/
def evC6w : RawEvent := ⟨some 7, ["x", "y"], .null, none⟩

/-- Document with declared duration 3 and one event at time 7. -/
def docC6w : InputDoc := ⟨some 3, emptyGenInit, emptyGenInit, emptyBoostInit, [evC6w]⟩

/-- Intensity event at time 1. -/
def evC7a : RawEvent := ⟨some 1, ["generator1", "intensity"], .num 10, none⟩

/-- Intensity event at time 2. -/
def evC7b : RawEvent := ⟨some 2, ["generator1", "intensity"], .num 20, none⟩

/-- Document whose initial g1 mode is the present but falsy value 0. -/
def docC9 : InputDoc :=
  ⟨none, ⟨none, none, some (.num 0)⟩, emptyGenInit, emptyBoostInit, []⟩

/-- Document with a truthy g1 initial mode and a falsy g2 initial mode. -/
def docC9w : InputDoc :=
  ⟨none, ⟨none, none, some (.str "calm")⟩, ⟨none, none, some (.bool false)⟩, emptyBoostInit, []⟩

/-- Document on which the engine itself raises (one-segment `boost`
path), driving the CLI through the uncaught-exception exit. -/
def docC8crash : InputDoc :=
  ⟨none, emptyGenInit, emptyGenInit, emptyBoostInit,
    [⟨some 0, ["boost"], .null, none⟩]⟩

/-! ### Generic facts about the stable insertion sort -/

theorem sortLe_nil (le : α → α → Bool) : sortLe le [] = [] := rfl

theorem sortLe_cons (le : α → α → Bool) (a : α) (l : List α) :
    sortLe le (a :: l) = insLe le a (sortLe le l) := rfl

theorem insLe_perm (le : α → α → Bool) (a : α) (l : List α) :
    (insLe le a l).Perm (a :: l) := by
  induction l with
  | nil => exact List.Perm.refl _
  | cons b bs ih =>
    unfold insLe
    by_cases h : le a b = true
    · rw [if_pos h]
    · rw [if_neg h]
      exact (ih.cons b).trans (List.Perm.swap a b bs)

theorem sortLe_perm (le : α → α → Bool) (l : List α) : (sortLe le l).Perm l := by
  induction l with
  | nil => exact List.Perm.refl _
  | cons a as ih =>
    rw [sortLe_cons]
    exact (insLe_perm le a _).trans (ih.cons a)

theorem insLe_pairwise (le : α → α → Bool)
    (htot : ∀ a b, le a b = true ∨ le b a = true)
    (htr : ∀ a b c, le a b = true → le b c = true → le a c = true)
    (a : α) (l : List α) (hl : l.Pairwise (fun x y => le x y = true)) :
    (insLe le a l).Pairwise (fun x y => le x y = true) := by
  induction l with
  | nil => simp [insLe]
  | cons b bs ih =>
    rw [List.pairwise_cons] at hl
    obtain ⟨hb, hbs⟩ := hl
    unfold insLe
    by_cases h : le a b = true
    · rw [if_pos h]
      refine List.pairwise_cons.2 ⟨?_, List.pairwise_cons.2 ⟨hb, hbs⟩⟩
      intro x hx
      rcases List.mem_cons.1 hx with rfl | hx'
      · exact h
      · exact htr a b x h (hb x hx')
    · rw [if_neg h]
      refine List.pairwise_cons.2 ⟨?_, ih hbs⟩
      intro x hx
      rcases List.mem_cons.1 ((insLe_perm le a bs).mem_iff.1 hx) with rfl | hx''
      · rcases htot x b with hh | hh
        · exact absurd hh h
        · exact hh
      · exact hb x hx''

theorem sortLe_pairwise (le : α → α → Bool)
    (htot : ∀ a b, le a b = true ∨ le b a = true)
    (htr : ∀ a b c, le a b = true → le b c = true → le a c = true)
    (l : List α) : (sortLe le l).Pairwise (fun x y => le x y = true) := by
  induction l with
  | nil => simp [sortLe]
  | cons a as ih =>
    rw [sortLe_cons]
    exact insLe_pairwise le htot htr a _ ih

/-- Stability of the insertion used with a key comparison: inserting `a`
leaves the subsequence of any fixed key unchanged, except that `a` lands
in front of the equal-key elements it was inserted before. -/
theorem insLe_filter_key (key : α → ℚ) (t : ℚ) (a : α) (l : List α) :
    (insLe (fun x y => decide (key x ≤ key y)) a l).filter (fun x => decide (key x = t))
      = if key a = t
        then a :: l.filter (fun x => decide (key x = t))
        else l.filter (fun x => decide (key x = t)) := by
  induction l with
  | nil =>
    by_cases h : key a = t <;> simp [insLe, List.filter, h]
  | cons b bs ih =>
    unfold insLe
    by_cases hab : decide (key a ≤ key b) = true
    · rw [if_pos hab]
      by_cases hat : key a = t
      · rw [List.filter_cons_of_pos (by simpa using hat), if_pos hat]
      · rw [List.filter_cons_of_neg (by simpa using hat), if_neg hat]
    · rw [if_neg hab]
      have hba : key b < key a := by
        simpa using not_le.mp (by simpa using hab)
      by_cases hbt : key b = t
      · have hat : ¬ key a = t := by
          intro hh
          exact absurd (hbt.trans hh.symm) (ne_of_lt hba)
        rw [List.filter_cons_of_pos (by simpa using hbt),
            List.filter_cons_of_pos (by simpa using hbt), ih, if_neg hat, if_neg hat]
      · rw [List.filter_cons_of_neg (by simpa using hbt),
            List.filter_cons_of_neg (by simpa using hbt), ih]

theorem sortLe_filter_key (key : α → ℚ) (t : ℚ) (l : List α) :
    (sortLe (fun x y => decide (key x ≤ key y)) l).filter (fun x => decide (key x = t))
      = l.filter (fun x => decide (key x = t)) := by
  induction l with
  | nil => rfl
  | cons a as ih =>
    rw [sortLe_cons, insLe_filter_key, List.filter_cons]
    by_cases h : key a = t
    · rw [if_pos h, if_pos (by simpa using h), ih]
    · rw [if_neg h, if_neg (by simpa using h), ih]

theorem sortKey_pairwise (key : α → ℚ) (l : List α) :
    (sortLe (fun x y => decide (key x ≤ key y)) l).Pairwise (fun x y => key x ≤ key y) := by
  have h := sortLe_pairwise (fun x y => decide (key x ≤ key y))
    (fun a b => by
      rcases le_total (key a) (key b) with h | h
      · exact Or.inl (by simpa using h)
      · exact Or.inr (by simpa using h))
    (fun a b c hab hbc => by
      simp only [decide_eq_true_eq] at hab hbc ⊢
      exact le_trans hab hbc) l
  exact h.imp (by intro a b hab; simpa using hab)

/-- Helper for the uniqueness of sorted lists: if the head key of the
left list is strictly below every key of the right list, the two lists
cannot agree on the subsequence of the left head's key. -/
theorem filter_head_absurd (key : α → ℚ) (a : α) (s1 : List α) (b : α) (s2 : List α)
    (hmax : ∀ x ∈ s2, key b ≤ key x)
    (hlt : key a < key b)
    (h : (a :: s1).filter (fun x => decide (key x = key a))
        = (b :: s2).filter (fun x => decide (key x = key a))) : False := by
  have hr : (b :: s2).filter (fun x => decide (key x = key a)) = [] := by
    rw [List.filter_eq_nil_iff]
    intro x hx
    simp only [decide_eq_true_eq]
    rcases List.mem_cons.1 hx with rfl | hx'
    · intro hh
      exact absurd hh.symm (ne_of_lt hlt)
    · intro hh
      have hle := hmax x hx'
      rw [hh] at hle
      exact absurd (lt_of_lt_of_le hlt hle) (lt_irrefl _)
  rw [hr, List.filter_cons_of_pos (by simp)] at h
  exact (List.cons_ne_nil _ _) h

/-- Two lists that are sorted by a key and agree on the subsequence of
every key value are equal. -/
theorem sorted_eq_of_filter_eq (key : α → ℚ) :
    ∀ (s1 s2 : List α),
      s1.Pairwise (fun x y => key x ≤ key y) →
      s2.Pairwise (fun x y => key x ≤ key y) →
      (∀ t, s1.filter (fun x => decide (key x = t)) = s2.filter (fun x => decide (key x = t))) →
      s1 = s2
  | [], [], _, _, _ => rfl
  | [], b :: s2, _, _, hf => by
    have h := hf (key b)
    rw [List.filter_nil, List.filter_cons_of_pos (by simp)] at h
    exact absurd h.symm (List.cons_ne_nil _ _)
  | a :: s1, [], _, _, hf => by
    have h := hf (key a)
    rw [List.filter_nil, List.filter_cons_of_pos (by simp)] at h
    exact absurd h (List.cons_ne_nil _ _)
  | a :: s1, b :: s2, h1, h2, hf => by
    rw [List.pairwise_cons] at h1 h2
    have hab : key a = key b := by
      by_contra hne
      rcases lt_or_gt_of_ne hne with hlt | hgt
      · exact filter_head_absurd key a s1 b s2 h2.1 hlt (hf (key a))
      · exact filter_head_absurd key b s2 a s1 h1.1 hgt (hf (key b)).symm
    have hfa := hf (key a)
    rw [List.filter_cons_of_pos (by simp),
        List.filter_cons_of_pos (by simp [hab])] at hfa
    have hhead : a = b := by
      injection hfa
    have htails : ∀ t, s1.filter (fun x => decide (key x = t))
        = s2.filter (fun x => decide (key x = t)) := by
      intro t
      by_cases ht : key a = t
      · have := hfa
        injection this with _ htail
        rw [← ht]
        exact htail
      · have h := hf t
        rw [List.filter_cons_of_neg (by simpa using ht),
            List.filter_cons_of_neg (by simp [← hab]; exact ht)] at h
        exact h
    rw [hhead, sorted_eq_of_filter_eq key s1 s2 h1.2 h2.2 htails]

/-- The stable sort of a list by a key is fully determined by the
subsequence of every key value. -/
theorem sortKey_eq_of_filter_eq (key : α → ℚ) (l1 l2 : List α)
    (hf : ∀ t, l1.filter (fun x => decide (key x = t))
      = l2.filter (fun x => decide (key x = t))) :
    sortLe (fun x y => decide (key x ≤ key y)) l1
      = sortLe (fun x y => decide (key x ≤ key y)) l2 :=
  sorted_eq_of_filter_eq key _ _ (sortKey_pairwise key l1) (sortKey_pairwise key l2)
    (fun t => by rw [sortLe_filter_key, sortLe_filter_key]; exact hf t)

/-! ### Facts about the session-bound maximum -/

theorem le_maxQ_left (a b : ℚ) : a ≤ maxQ a b := by
  unfold maxQ
  split
  · assumption
  · exact le_refl a

theorem le_maxQ_right (a b : ℚ) : b ≤ maxQ a b := by
  unfold maxQ
  split
  · exact le_refl b
  · exact le_of_lt (not_le.mp (by assumption))

theorem maxQ_cases (a b : ℚ) : maxQ a b = a ∨ maxQ a b = b := by
  unfold maxQ
  split
  · exact Or.inr rfl
  · exact Or.inl rfl

theorem foldl_maxQ_init_le (l : List RawEvent) :
    ∀ init : ℚ, init ≤ l.foldl (fun m f => maxQ m (tsKey f)) init := by
  induction l with
  | nil => intro init; exact le_refl _
  | cons e es ih => intro init; exact le_trans (le_maxQ_left _ _) (ih _)

theorem foldl_maxQ_mem_le (l : List RawEvent) :
    ∀ init : ℚ, ∀ x ∈ l, tsKey x ≤ l.foldl (fun m f => maxQ m (tsKey f)) init := by
  induction l with
  | nil => intro init x hx; cases hx
  | cons e es ih =>
    intro init x hx
    rcases List.mem_cons.1 hx with rfl | hx'
    · exact le_trans (le_maxQ_right _ _) (foldl_maxQ_init_le es _)
    · exact ih _ x hx'

theorem foldl_maxQ_attained (l : List RawEvent) :
    ∀ init : ℚ, l.foldl (fun m f => maxQ m (tsKey f)) init = init
      ∨ ∃ x ∈ l, l.foldl (fun m f => maxQ m (tsKey f)) init = tsKey x := by
  induction l with
  | nil => intro init; exact Or.inl rfl
  | cons e es ih =>
    intro init
    rcases ih (maxQ init (tsKey e)) with h | ⟨x, hx, hh⟩
    · rcases maxQ_cases init (tsKey e) with hc | hc
      · exact Or.inl (h.trans hc)
      · exact Or.inr ⟨e, List.mem_cons_self e es, h.trans hc⟩
    · exact Or.inr ⟨x, List.mem_cons_of_mem e hx, hh⟩

theorem maxTs_bound (l : List RawEvent) (e : RawEvent) (he : e ∈ l) :
    tsKey e ≤ maxTsInData l := by
  cases l with
  | nil => cases he
  | cons a as =>
    unfold maxTsInData
    rcases List.mem_cons.1 he with rfl | he'
    · exact foldl_maxQ_init_le as (tsKey e)
    · exact foldl_maxQ_mem_le as _ e he'

theorem maxTs_attained (l : List RawEvent) (h : l ≠ []) :
    ∃ e ∈ l, maxTsInData l = tsKey e := by
  cases l with
  | nil => exact absurd rfl h
  | cons a as =>
    unfold maxTsInData
    rcases foldl_maxQ_attained as (tsKey a) with hh | ⟨x, hx, hh⟩
    · exact ⟨a, List.mem_cons_self a as, hh⟩
    · exact ⟨x, List.mem_cons_of_mem a hx, hh⟩

theorem maxTs_perm (l1 l2 : List RawEvent) (hp : l1.Perm l2) :
    maxTsInData l1 = maxTsInData l2 := by
  cases l1 with
  | nil =>
    rw [hp.symm.eq_nil]
  | cons a as =>
    have h2ne : l2 ≠ [] := by
      intro hnil
      rw [hnil] at hp
      exact absurd hp.eq_nil (List.cons_ne_nil a as)
    apply le_antisymm
    · obtain ⟨e, he, hh⟩ := maxTs_attained (a :: as) (List.cons_ne_nil a as)
      rw [hh]
      exact maxTs_bound l2 e (hp.mem_iff.1 he)
    · obtain ⟨e, he, hh⟩ := maxTs_attained l2 h2ne
      rw [hh]
      exact maxTs_bound (a :: as) e (hp.mem_iff.2 he)

/-! ### Facts about the lexicographic pair order used by the finalizer -/

theorem pairLe_iff (p q : ℚ × ℚ) :
    pairLe p q = true ↔ p.1 < q.1 ∨ (p.1 = q.1 ∧ p.2 ≤ q.2) := by
  simp [pairLe, Bool.or_eq_true, Bool.and_eq_true, decide_eq_true_eq]

theorem pairLe_total (p q : ℚ × ℚ) : pairLe p q = true ∨ pairLe q p = true := by
  rcases lt_trichotomy p.1 q.1 with h | h | h
  · exact Or.inl (pairLe_iff p q |>.2 (Or.inl h))
  · rcases le_total p.2 q.2 with h2 | h2
    · exact Or.inl (pairLe_iff p q |>.2 (Or.inr ⟨h, h2⟩))
    · exact Or.inr (pairLe_iff q p |>.2 (Or.inr ⟨h.symm, h2⟩))
  · exact Or.inr (pairLe_iff q p |>.2 (Or.inl h))

theorem pairLe_trans (p q r : ℚ × ℚ) (h1 : pairLe p q = true) (h2 : pairLe q r = true) :
    pairLe p r = true := by
  rw [pairLe_iff] at h1 h2 ⊢
  rcases h1 with h1 | ⟨h1e, h1v⟩
  · rcases h2 with h2 | ⟨h2e, _⟩
    · exact Or.inl (lt_trans h1 h2)
    · exact Or.inl (h2e ▸ h1)
  · rcases h2 with h2 | ⟨h2e, h2v⟩
    · exact Or.inl (h1e ▸ h2)
    · exact Or.inr ⟨h1e.trans h2e, le_trans h1v h2v⟩

theorem sortPair_pairwise (l : List (ℚ × ℚ)) :
    (sortLe pairLe l).Pairwise (fun p q => pairLe p q = true) :=
  sortLe_pairwise pairLe pairLe_total pairLe_trans l

theorem sortPair_tsMono (l : List (ℚ × ℚ)) :
    (sortLe pairLe l).Pairwise (fun p q => p.1 ≤ q.1) :=
  (sortPair_pairwise l).imp (by
    intro p q h
    rcases (pairLe_iff p q).1 h with h | ⟨h, _⟩
    · exact le_of_lt h
    · exact le_of_eq h)

/-! ### Facts about the fire handlers -/

theorem lastSample_of_ne_nil : ∀ (l : List (ℚ × ℚ)), l ≠ [] → ∃ p, lastSample l = some p
  | [], h => absurd rfl h
  | [p], _ => ⟨p, rfl⟩
  | p :: q :: ps, _ => by
    obtain ⟨x, hx⟩ := lastSample_of_ne_nil (q :: ps) (List.cons_ne_nil q ps)
    exact ⟨x, by simpa [lastSample] using hx⟩

theorem fireGen_extends (b : BoostState) (ts : ℚ) (g g' : GenState)
    (h : fireGen b ts g = .ok g') :
    g'.base_intensity = g.base_intensity ∧ g'.adjust_value = g.adjust_value
      ∧ g'.adjust_plot_data = g.adjust_plot_data
      ∧ ∃ tl, g'.plot_data = g.plot_data ++ tl := by
  unfold fireGen at h
  split at h
  · injection h with h
    subst h
    exact ⟨rfl, rfl, rfl, ⟨_, rfl⟩⟩
  · split at h
    · cases h
    · injection h with h
      subst h
      exact ⟨rfl, rfl, rfl, ⟨_, rfl⟩⟩

theorem fireGen_ok (b : BoostState) (ts : ℚ) (g : GenState) (h : g.plot_data ≠ []) :
    ∃ g', fireGen b ts g = .ok g' := by
  unfold fireGen
  split
  · exact ⟨_, rfl⟩
  · obtain ⟨p, hp⟩ := lastSample_of_ne_nil g.plot_data h
    rw [hp]
    exact ⟨_, rfl⟩

theorem fireGen_err (b : BoostState) (ts : ℚ) (g : GenState) (err : EngErr)
    (h : fireGen b ts g = .error err) : err = .emptySeries := by
  unfold fireGen at h
  split at h
  · cases h
  · split at h
    · injection h with h
      exact h.symm
    · cases h

theorem fireChan_extends (s : EngineState) (ts : ℚ) (gk : GenId) (s' : EngineState)
    (h : fireChan s ts gk = .ok s') :
    s'.boost = s.boost ∧ s'.fire_events = s.fire_events
      ∧ s'.modes_g1 = s.modes_g1 ∧ s'.modes_g2 = s.modes_g2
      ∧ (∃ t1, s'.g1.plot_data = s.g1.plot_data ++ t1)
      ∧ (∃ t2, s'.g2.plot_data = s.g2.plot_data ++ t2) := by
  unfold fireChan at h
  split at h
  · cases hf : fireGen s.boost ts (s.gen gk) with
    | error e =>
      rw [hf] at h
      cases h
    | ok g =>
      rw [hf] at h
      simp only [Except.map] at h
      injection h with h
      subst h
      obtain ⟨_, _, _, tl, htl⟩ := fireGen_extends _ _ _ _ hf
      cases gk with
      | g1 =>
        refine ⟨rfl, rfl, rfl, rfl, ⟨tl, ?_⟩, ⟨[], by simp [EngineState.setGen]⟩⟩
        simpa [EngineState.setGen, EngineState.gen] using htl
      | g2 =>
        refine ⟨rfl, rfl, rfl, rfl, ⟨[], by simp [EngineState.setGen]⟩, ⟨tl, ?_⟩⟩
        simpa [EngineState.setGen, EngineState.gen] using htl
  · injection h with h
    subst h
    exact ⟨rfl, rfl, rfl, rfl, ⟨[], by simp⟩, ⟨[], by simp⟩⟩

theorem fireChan_ok (s : EngineState) (ts : ℚ) (gk : GenId)
    (h1 : s.g1.plot_data ≠ []) (h2 : s.g2.plot_data ≠ []) :
    ∃ s', fireChan s ts gk = .ok s' := by
  unfold fireChan
  split
  · have hne : (s.gen gk).plot_data ≠ [] := by
      cases gk
      · exact h1
      · exact h2
    obtain ⟨g', hg⟩ := fireGen_ok s.boost ts (s.gen gk) hne
    rw [hg]
    exact ⟨_, rfl⟩
  · exact ⟨_, rfl⟩

theorem fireChan_err (s : EngineState) (ts : ℚ) (gk : GenId) (err : EngErr)
    (h : fireChan s ts gk = .error err) : err = .emptySeries := by
  unfold fireChan at h
  split at h
  · cases hf : fireGen s.boost ts (s.gen gk) with
    | error e =>
      rw [hf] at h
      simp only [Except.map] at h
      injection h with h
      rw [← h]
      exact fireGen_err _ _ _ _ hf
    | ok g =>
      rw [hf] at h
      cases h
  · cases h

theorem shockTransition_parts (s : EngineState) (ts : ℚ) (ent : Bool) :
    (shockTransition s ts ent).boost = s.boost
      ∧ (shockTransition s ts ent).fire_events = s.fire_events
      ∧ (shockTransition s ts ent).modes_g1 = s.modes_g1
      ∧ (shockTransition s ts ent).modes_g2 = s.modes_g2
      ∧ (∃ t1, (shockTransition s ts ent).g1.plot_data = s.g1.plot_data ++ t1)
      ∧ (∃ t2, (shockTransition s ts ent).g2.plot_data = s.g2.plot_data ++ t2) := by
  unfold shockTransition
  cases h1 : maskGet s.boost.channels .g1 <;>
    cases h2 : maskGet s.boost.channels .g2 <;>
      simp [h1, h2, appendSample]

theorem fireStep_parts (s : EngineState) (cur : Bool × Bool) (ts : ℚ) (s' : EngineState)
    (h : fireStep s cur ts = .ok s') :
    s'.boost = s.boost ∧ s'.fire_events = s.fire_events ++ [(ts, cur)]
      ∧ s'.modes_g1 = s.modes_g1 ∧ s'.modes_g2 = s.modes_g2
      ∧ (∃ t1, s'.g1.plot_data = s.g1.plot_data ++ t1)
      ∧ (∃ t2, s'.g2.plot_data = s.g2.plot_data ++ t2) := by
  unfold fireStep at h
  cases hc1 : fireChan { s with fire_events := s.fire_events ++ [(ts, cur)] } ts .g1 with
  | error e =>
    simp only [hc1] at h
    exact Except.noConfusion h
  | ok s1 =>
    simp only [hc1] at h
    cases hc2 : fireChan s1 ts .g2 with
    | error e =>
      simp only [hc2] at h
      exact Except.noConfusion h
    | ok s2 =>
      simp only [hc2] at h
      injection h with h
      subst h
      obtain ⟨hb1, hf1, hm11, hm21, ⟨t11, hp11⟩, ⟨t21, hp21⟩⟩ := fireChan_extends _ _ _ _ hc1
      obtain ⟨hb2, hf2, hm12, hm22, ⟨t12, hp12⟩, ⟨t22, hp22⟩⟩ := fireChan_extends _ _ _ _ hc2
      refine ⟨hb2.trans hb1, (hf2.trans hf1), hm12.trans hm11, hm22.trans hm21,
        ⟨t11 ++ t12, ?_⟩, ⟨t21 ++ t22, ?_⟩⟩
      · rw [hp12, hp11, List.append_assoc]
      · rw [hp22, hp21, List.append_assoc]

theorem fireStep_ok (s : EngineState) (cur : Bool × Bool) (ts : ℚ)
    (h1 : s.g1.plot_data ≠ []) (h2 : s.g2.plot_data ≠ []) :
    ∃ s', fireStep s cur ts = .ok s' := by
  unfold fireStep
  obtain ⟨s1, hc1⟩ :=
    fireChan_ok { s with fire_events := s.fire_events ++ [(ts, cur)] } ts .g1 h1 h2
  simp only [hc1]
  obtain ⟨_, _, _, _, ⟨t1, hp1⟩, ⟨t2, hp2⟩⟩ := fireChan_extends _ _ _ _ hc1
  have h1' : s1.g1.plot_data ≠ [] := by
    rw [hp1]
    simp [h1]
  have h2' : s1.g2.plot_data ≠ [] := by
    rw [hp2]
    simp [h2]
  obtain ⟨s2, hc2⟩ := fireChan_ok s1 ts .g2 h1' h2'
  simp only [hc2]
  exact ⟨s2, rfl⟩

theorem fireStep_err (s : EngineState) (cur : Bool × Bool) (ts : ℚ) (err : EngErr)
    (h : fireStep s cur ts = .error err) : err = .emptySeries := by
  unfold fireStep at h
  cases hc1 : fireChan { s with fire_events := s.fire_events ++ [(ts, cur)] } ts .g1 with
  | error e =>
    simp only [hc1] at h
    injection h with h
    rw [← h]
    exact fireChan_err _ _ _ _ hc1
  | ok s1 =>
    simp only [hc1] at h
    cases hc2 : fireChan s1 ts .g2 with
    | error e =>
      simp only [hc2] at h
      injection h with h
      rw [← h]
      exact fireChan_err _ _ _ _ hc2
    | ok s2 =>
      simp only [hc2] at h
      exact Except.noConfusion h

@[simp] theorem setGen_boost (s : EngineState) (gk : GenId) (g : GenState) :
    (s.setGen gk g).boost = s.boost := by
  cases gk <;> rfl

@[simp] theorem setGen_fire (s : EngineState) (gk : GenId) (g : GenState) :
    (s.setGen gk g).fire_events = s.fire_events := by
  cases gk <;> rfl

@[simp] theorem setGen_modes_g1 (s : EngineState) (gk : GenId) (g : GenState) :
    (s.setGen gk g).modes_g1 = s.modes_g1 := by
  cases gk <;> rfl

@[simp] theorem setGen_modes_g2 (s : EngineState) (gk : GenId) (g : GenState) :
    (s.setGen gk g).modes_g2 = s.modes_g2 := by
  cases gk <;> rfl

@[simp] theorem setModes_boost (s : EngineState) (gk : GenId) (m : List (ℚ × Val)) :
    (s.setModes gk m).boost = s.boost := by
  cases gk <;> rfl

@[simp] theorem setModes_fire (s : EngineState) (gk : GenId) (m : List (ℚ × Val)) :
    (s.setModes gk m).fire_events = s.fire_events := by
  cases gk <;> rfl

@[simp] theorem setModes_g1_plot (s : EngineState) (gk : GenId) (m : List (ℚ × Val)) :
    (s.setModes gk m).g1 = s.g1 := by
  cases gk <;> rfl

@[simp] theorem setModes_g2_plot (s : EngineState) (gk : GenId) (m : List (ℚ × Val)) :
    (s.setModes gk m).g2 = s.g2 := by
  cases gk <;> rfl

/-! ### Facts about the boost-event handler -/

theorem boostStep_extends (s : EngineState) (cur : Bool × Bool) (ts : ℚ) (prop : String)
    (v : Val) (ty : Option String) (s' : EngineState) (cur' : Bool × Bool)
    (h : boostStep s cur ts prop v ty = .ok (s', cur')) :
    (∃ t3, s'.fire_events = s.fire_events ++ t3)
      ∧ (∃ t1, s'.g1.plot_data = s.g1.plot_data ++ t1)
      ∧ (∃ t2, s'.g2.plot_data = s.g2.plot_data ++ t2) := by
  unfold boostStep at h
  split at h
  · split at h
    · injection h with h
      injection h with h hcur
      subst h
      exact ⟨⟨[], by simp⟩, ⟨[], by simp⟩, ⟨[], by simp⟩⟩
    · exact Except.noConfusion h
  · split at h
    · split at h
      · split at h
        · injection h with h
          injection h with h hcur
          subst h
          obtain ⟨_, hf, _, _, ⟨t1, ht1⟩, ⟨t2, ht2⟩⟩ := shockTransition_parts _ ts _
          refine ⟨⟨[], by rw [hf]; simp⟩, ⟨t1, by rw [ht1]⟩, ⟨t2, by rw [ht2]⟩⟩
        · injection h with h
          injection h with h hcur
          subst h
          exact ⟨⟨[], by simp⟩, ⟨[], by simp⟩, ⟨[], by simp⟩⟩
      · exact Except.noConfusion h
    · split at h
      · split at h
        · injection h with h
          injection h with h hcur
          subst h
          exact ⟨⟨[], by simp⟩, ⟨[], by simp⟩, ⟨[], by simp⟩⟩
        · exact Except.noConfusion h
      · split at h
        · split at h
          · injection h with h
            injection h with h hcur
            subst h
            exact ⟨⟨[], by simp⟩, ⟨[], by simp⟩, ⟨[], by simp⟩⟩
          · exact Except.noConfusion h
        · split at h
          · cases hf : fireStep s cur ts with
            | error e =>
              simp only [hf, Except.map] at h
              exact Except.noConfusion h
            | ok s2 =>
              simp only [hf, Except.map] at h
              injection h with h
              injection h with h hcur
              subst h
              obtain ⟨_, hfe, _, _, ht1, ht2⟩ := fireStep_parts _ _ _ _ hf
              exact ⟨⟨[(ts, cur)], hfe⟩, ht1, ht2⟩
          · injection h with h
            injection h with h hcur
            subst h
            exact ⟨⟨[], by simp⟩, ⟨[], by simp⟩, ⟨[], by simp⟩⟩

theorem boostStep_mask (s : EngineState) (cur : Bool × Bool) (ts : ℚ) (prop : String)
    (v : Val) (ty : Option String) (s' : EngineState) (cur' : Bool × Bool)
    (h : boostStep s cur ts prop v ty = .ok (s', cur')) (hc : cur = s.boost.channels) :
    cur' = s'.boost.channels := by
  unfold boostStep at h
  split at h
  · split at h
    · injection h with h
      injection h with h hcur
      subst h
      subst hcur
      rfl
    · exact Except.noConfusion h
  · split at h
    · split at h
      · split at h
        · injection h with h
          injection h with h hcur
          subst h
          subst hcur
          obtain ⟨hb, _, _, _, _, _⟩ := shockTransition_parts _ ts _
          rw [hb]
          exact hc
        · injection h with h
          injection h with h hcur
          subst h
          subst hcur
          exact hc
      · exact Except.noConfusion h
    · split at h
      · split at h
        · injection h with h
          injection h with h hcur
          subst h
          subst hcur
          exact hc
        · exact Except.noConfusion h
      · split at h
        · split at h
          · injection h with h
            injection h with h hcur
            subst h
            subst hcur
            exact hc
          · exact Except.noConfusion h
        · split at h
          · cases hf : fireStep s cur ts with
            | error e =>
              simp only [hf, Except.map] at h
              exact Except.noConfusion h
            | ok s2 =>
              simp only [hf, Except.map] at h
              injection h with h
              injection h with h hcur
              subst h
              subst hcur
              obtain ⟨hb, _, _, _, _, _⟩ := fireStep_parts _ _ _ _ hf
              rw [hb]
              exact hc
          · injection h with h
            injection h with h hcur
            subst h
            subst hcur
            exact hc

theorem boostStep_ok (s : EngineState) (cur : Bool × Bool) (ts : ℚ) (prop : String)
    (v : Val) (ty : Option String)
    (h1 : s.g1.plot_data ≠ []) (h2 : s.g2.plot_data ≠ [])
    (hch : prop = "channels" → ∃ a b, v = .channelPair a b)
    (hsm : prop = "shockMode" → ∃ b, v = .bool b)
    (hnum : prop = "duration" ∨ prop = "offset" → ∃ q, v = .num q) :
    ∃ s' cur', boostStep s cur ts prop v ty = .ok (s', cur') := by
  unfold boostStep
  split
  · rename_i hp
    obtain ⟨a, b, rfl⟩ := hch hp
    exact ⟨_, _, rfl⟩
  · split
    · rename_i hp
      obtain ⟨b, rfl⟩ := hsm hp
      split
      · split
        · exact ⟨_, _, rfl⟩
        · exact ⟨_, _, rfl⟩
      · rename_i hcontra
        exact absurd rfl (hcontra b)
    · split
      · rename_i hp
        obtain ⟨q, rfl⟩ := hnum (Or.inl hp)
        exact ⟨_, _, rfl⟩
      · split
        · rename_i hp
          obtain ⟨q, rfl⟩ := hnum (Or.inr hp)
          exact ⟨_, _, rfl⟩
        · split
          · obtain ⟨s2, hs⟩ := fireStep_ok s cur ts h1 h2
            simp only [hs, Except.map]
            exact ⟨_, _, rfl⟩
          · exact ⟨_, _, rfl⟩

theorem boostStep_no_empty (s : EngineState) (cur : Bool × Bool) (ts : ℚ) (prop : String)
    (v : Val) (ty : Option String)
    (h1 : s.g1.plot_data ≠ []) (h2 : s.g2.plot_data ≠ []) :
    boostStep s cur ts prop v ty ≠ .error .emptySeries := by
  unfold boostStep
  split
  · split
    · exact fun h => Except.noConfusion h
    · intro h
      injection h with h
      exact EngErr.noConfusion h
  · split
    · split
      · split
        · exact fun h => Except.noConfusion h
        · exact fun h => Except.noConfusion h
      · intro h
        injection h with h
        exact EngErr.noConfusion h
    · split
      · split
        · exact fun h => Except.noConfusion h
        · intro h
          injection h with h
          exact EngErr.noConfusion h
      · split
        · split
          · exact fun h => Except.noConfusion h
          · intro h
            injection h with h
            exact EngErr.noConfusion h
        · split
          · obtain ⟨s2, hs⟩ := fireStep_ok s cur ts h1 h2
            simp [hs, Except.map]
          · exact fun h => Except.noConfusion h

/-! ### Facts about the generator-event handler -/

theorem genStep_parts (s : EngineState) (cur : Bool × Bool) (ts : ℚ) (gk : GenId)
    (prop : String) (v : Val) (s' : EngineState) (cur' : Bool × Bool)
    (h : genStep s cur ts gk prop v = .ok (s', cur')) :
    s'.boost = s.boost ∧ s'.fire_events = s.fire_events ∧ cur' = cur
      ∧ (∃ t1, s'.g1.plot_data = s.g1.plot_data ++ t1)
      ∧ (∃ t2, s'.g2.plot_data = s.g2.plot_data ++ t2) := by
  simp only [genStep] at h
  split at h
  · split at h
    · split at h
      · injection h with h
        injection h with h hcur
        subst h
        subst hcur
        cases gk <;>
          simp [EngineState.setGen, EngineState.gen, appendSample]
      · injection h with h
        injection h with h hcur
        subst h
        subst hcur
        cases gk <;>
          simp [EngineState.setGen, EngineState.gen, appendSample]
    · exact Except.noConfusion h
  · split at h
    · injection h with h
      injection h with h hcur
      subst h
      subst hcur
      simp
    · split at h
      · split at h
        · injection h with h
          injection h with h hcur
          subst h
          subst hcur
          cases gk <;>
            simp [EngineState.setGen, EngineState.gen]
        · exact Except.noConfusion h
      · injection h with h
        injection h with h hcur
        subst h
        subst hcur
        simp

theorem genStep_ok (s : EngineState) (cur : Bool × Bool) (ts : ℚ) (gk : GenId)
    (prop : String) (v : Val)
    (hint : prop = "intensity" → ∃ q, v = .num q)
    (hadj : prop = "adjust" → ∃ q, v = .num q) :
    ∃ s' cur', genStep s cur ts gk prop v = .ok (s', cur') := by
  simp only [genStep]
  split
  · rename_i hp
    obtain ⟨q, rfl⟩ := hint hp
    split
    · split
      · exact ⟨_, _, rfl⟩
      · exact ⟨_, _, rfl⟩
    · rename_i hcontra
      exact absurd rfl (hcontra q)
  · split
    · exact ⟨_, _, rfl⟩
    · split
      · rename_i hp
        obtain ⟨q, rfl⟩ := hadj hp
        exact ⟨_, _, rfl⟩
      · exact ⟨_, _, rfl⟩

theorem genStep_no_empty (s : EngineState) (cur : Bool × Bool) (ts : ℚ) (gk : GenId)
    (prop : String) (v : Val) :
    genStep s cur ts gk prop v ≠ .error .emptySeries := by
  simp only [genStep]
  split
  · split
    · split
      · exact fun h => Except.noConfusion h
      · exact fun h => Except.noConfusion h
    · intro h
      injection h with h
      exact EngErr.noConfusion h
  · split
    · exact fun h => Except.noConfusion h
    · split
      · split
        · exact fun h => Except.noConfusion h
        · intro h
          injection h with h
          exact EngErr.noConfusion h
      · exact fun h => Except.noConfusion h

/-! ### Facts about the dispatcher -/

theorem dispatchEvent_extends (s : EngineState) (cur : Bool × Bool) (e : RawEvent)
    (s' : EngineState) (cur' : Bool × Bool)
    (h : dispatchEvent s cur e = .ok (s', cur')) :
    (∃ t3, s'.fire_events = s.fire_events ++ t3)
      ∧ (∃ t1, s'.g1.plot_data = s.g1.plot_data ++ t1)
      ∧ (∃ t2, s'.g2.plot_data = s.g2.plot_data ++ t2) := by
  unfold dispatchEvent at h
  split at h
  · injection h with h
    injection h with h hcur
    subst h
    exact ⟨⟨[], by simp⟩, ⟨[], by simp⟩, ⟨[], by simp⟩⟩
  · split at h
    · injection h with h
      injection h with h hcur
      subst h
      exact ⟨⟨[], by simp⟩, ⟨[], by simp⟩, ⟨[], by simp⟩⟩
    · split at h
      · split at h
        · exact Except.noConfusion h
        · exact boostStep_extends _ _ _ _ _ _ _ _ h
      · split at h
        · split at h
          · exact Except.noConfusion h
          · obtain ⟨_, hfe, _, ht1, ht2⟩ := genStep_parts _ _ _ _ _ _ _ _ h
            exact ⟨⟨[], by rw [hfe]; simp⟩, ht1, ht2⟩
        · injection h with h
          injection h with h hcur
          subst h
          exact ⟨⟨[], by simp⟩, ⟨[], by simp⟩, ⟨[], by simp⟩⟩

theorem dispatchEvent_mask (s : EngineState) (cur : Bool × Bool) (e : RawEvent)
    (s' : EngineState) (cur' : Bool × Bool)
    (h : dispatchEvent s cur e = .ok (s', cur')) (hc : cur = s.boost.channels) :
    cur' = s'.boost.channels := by
  unfold dispatchEvent at h
  split at h
  · injection h with h
    injection h with h hcur
    subst h
    subst hcur
    exact hc
  · split at h
    · injection h with h
      injection h with h hcur
      subst h
      subst hcur
      exact hc
    · split at h
      · split at h
        · exact Except.noConfusion h
        · exact boostStep_mask _ _ _ _ _ _ _ _ h hc
      · split at h
        · split at h
          · exact Except.noConfusion h
          · obtain ⟨hb, _, hcur, _, _⟩ := genStep_parts _ _ _ _ _ _ _ _ h
            rw [hcur, hb]
            exact hc
        · injection h with h
          injection h with h hcur
          subst h
          subst hcur
          exact hc

theorem dispatchEvent_no_empty (s : EngineState) (cur : Bool × Bool) (e : RawEvent)
    (h1 : s.g1.plot_data ≠ []) (h2 : s.g2.plot_data ≠ []) :
    dispatchEvent s cur e ≠ .error .emptySeries := by
  unfold dispatchEvent
  split
  · exact fun h => Except.noConfusion h
  · split
    · exact fun h => Except.noConfusion h
    · split
      · split
        · intro h
          injection h with h
          exact EngErr.noConfusion h
        · exact boostStep_no_empty _ _ _ _ _ _ h1 h2
      · split
        · split
          · intro h
            injection h with h
            exact EngErr.noConfusion h
          · exact genStep_no_empty _ _ _ _ _ _
        · exact fun h => Except.noConfusion h

theorem dispatchEvent_total (s : EngineState) (cur : Bool × Bool) (e : RawEvent)
    (hp : pathOk e = true) (hw : wellTyped e = true)
    (h1 : s.g1.plot_data ≠ []) (h2 : s.g2.plot_data ≠ []) :
    ∃ s' cur', dispatchEvent s cur e = .ok (s', cur') := by
  unfold dispatchEvent
  split
  · exact ⟨_, _, rfl⟩
  · rename_i ts hts
    split
    · exact ⟨_, _, rfl⟩
    · rename_i p0 rest hpath
      split
      · rename_i hp0
        cases rest with
        | nil =>
          exfalso
          subst hp0
          simp [pathOk, hpath] at hp
        | cons prop tl =>
          apply boostStep_ok s cur ts prop e.value e.type h1 h2
          · intro hpc
            subst hp0
            subst hpc
            cases hv : e.value with
            | channelPair a b => exact ⟨a, b, rfl⟩
            | num q =>
              exfalso
              have hw2 : wellTyped e = false := by simp [wellTyped, hpath, hv]
              rw [hw] at hw2
              exact Bool.noConfusion hw2
            | bool b =>
              exfalso
              have hw2 : wellTyped e = false := by simp [wellTyped, hpath, hv]
              rw [hw] at hw2
              exact Bool.noConfusion hw2
            | str t =>
              exfalso
              have hw2 : wellTyped e = false := by simp [wellTyped, hpath, hv]
              rw [hw] at hw2
              exact Bool.noConfusion hw2
            | null =>
              exfalso
              have hw2 : wellTyped e = false := by simp [wellTyped, hpath, hv]
              rw [hw] at hw2
              exact Bool.noConfusion hw2
          · intro hpc
            subst hp0
            subst hpc
            cases hv : e.value with
            | bool b => exact ⟨b, rfl⟩
            | num q =>
              exfalso
              have hw2 : wellTyped e = false := by simp [wellTyped, hpath, hv]
              rw [hw] at hw2
              exact Bool.noConfusion hw2
            | channelPair a b =>
              exfalso
              have hw2 : wellTyped e = false := by simp [wellTyped, hpath, hv]
              rw [hw] at hw2
              exact Bool.noConfusion hw2
            | str t =>
              exfalso
              have hw2 : wellTyped e = false := by simp [wellTyped, hpath, hv]
              rw [hw] at hw2
              exact Bool.noConfusion hw2
            | null =>
              exfalso
              have hw2 : wellTyped e = false := by simp [wellTyped, hpath, hv]
              rw [hw] at hw2
              exact Bool.noConfusion hw2
          · intro hpc
            subst hp0
            rcases hpc with hpc | hpc <;>
            · subst hpc
              cases hv : e.value with
              | num q => exact ⟨q, rfl⟩
              | bool b =>
                exfalso
                have hw2 : wellTyped e = false := by simp [wellTyped, hpath, hv]
                rw [hw] at hw2
                exact Bool.noConfusion hw2
              | channelPair a b =>
                exfalso
                have hw2 : wellTyped e = false := by simp [wellTyped, hpath, hv]
                rw [hw] at hw2
                exact Bool.noConfusion hw2
              | str t =>
                exfalso
                have hw2 : wellTyped e = false := by simp [wellTyped, hpath, hv]
                rw [hw] at hw2
                exact Bool.noConfusion hw2
              | null =>
                exfalso
                have hw2 : wellTyped e = false := by simp [wellTyped, hpath, hv]
                rw [hw] at hw2
                exact Bool.noConfusion hw2
      · rename_i hpg
        split
        · rename_i hpg2
          cases rest with
          | nil =>
            exfalso
            rcases hpg2 with hg | hg <;>
            · subst hg
              simp [pathOk, hpath] at hp
          | cons prop tl =>
            apply genStep_ok s cur ts _ prop e.value
            · intro hpc
              subst hpc
              rcases hpg2 with hg | hg <;>
              · subst hg
                cases hv : e.value with
                | num q => exact ⟨q, rfl⟩
                | bool b =>
                  exfalso
                  have hw2 : wellTyped e = false := by simp [wellTyped, hpath, hv]
                  rw [hw] at hw2
                  exact Bool.noConfusion hw2
                | channelPair a b =>
                  exfalso
                  have hw2 : wellTyped e = false := by simp [wellTyped, hpath, hv]
                  rw [hw] at hw2
                  exact Bool.noConfusion hw2
                | str t =>
                  exfalso
                  have hw2 : wellTyped e = false := by simp [wellTyped, hpath, hv]
                  rw [hw] at hw2
                  exact Bool.noConfusion hw2
                | null =>
                  exfalso
                  have hw2 : wellTyped e = false := by simp [wellTyped, hpath, hv]
                  rw [hw] at hw2
                  exact Bool.noConfusion hw2
            · intro hpc
              subst hpc
              rcases hpg2 with hg | hg <;>
              · subst hg
                cases hv : e.value with
                | num q => exact ⟨q, rfl⟩
                | bool b =>
                  exfalso
                  have hw2 : wellTyped e = false := by simp [wellTyped, hpath, hv]
                  rw [hw] at hw2
                  exact Bool.noConfusion hw2
                | channelPair a b =>
                  exfalso
                  have hw2 : wellTyped e = false := by simp [wellTyped, hpath, hv]
                  rw [hw] at hw2
                  exact Bool.noConfusion hw2
                | str t =>
                  exfalso
                  have hw2 : wellTyped e = false := by simp [wellTyped, hpath, hv]
                  rw [hw] at hw2
                  exact Bool.noConfusion hw2
                | null =>
                  exfalso
                  have hw2 : wellTyped e = false := by simp [wellTyped, hpath, hv]
                  rw [hw] at hw2
                  exact Bool.noConfusion hw2
        · exact ⟨_, _, rfl⟩

/-! ### Facts about whole runs -/

theorem runEvents_seriesOk (evs : List RawEvent) :
    ∀ (s : EngineState) (cur : Bool × Bool),
      s.g1.plot_data ≠ [] → s.g2.plot_data ≠ [] →
      seriesOk (runEvents s cur evs) = true := by
  induction evs with
  | nil =>
    intro s cur h1 h2
    cases hg1 : s.g1.plot_data with
    | nil => exact absurd hg1 h1
    | cons p1 l1 =>
      cases hg2 : s.g2.plot_data with
      | nil => exact absurd hg2 h2
      | cons p2 l2 => simp [runEvents, seriesOk, hg1, hg2]
  | cons e es ih =>
    intro s cur h1 h2
    unfold runEvents
    cases hd : dispatchEvent s cur e with
    | error err =>
      have hne := dispatchEvent_no_empty s cur e h1 h2
      rw [hd] at hne
      cases err with
      | emptySeries => exact absurd rfl hne
      | pathIndex => simp [seriesOk]
      | typeErr => simp [seriesOk]
    | ok pr =>
      obtain ⟨s2, cur2⟩ := pr
      obtain ⟨_, ⟨t1, ht1⟩, ⟨t2, ht2⟩⟩ := dispatchEvent_extends _ _ _ _ _ hd
      exact ih s2 cur2 (by rw [ht1]; simp [h1]) (by rw [ht2]; simp [h2])

theorem runEvents_total (evs : List RawEvent) :
    ∀ (s : EngineState) (cur : Bool × Bool),
      (∀ e ∈ evs, pathOk e = true ∧ wellTyped e = true) →
      s.g1.plot_data ≠ [] → s.g2.plot_data ≠ [] →
      ∃ s' cur', runEvents s cur evs = .ok (s', cur') := by
  induction evs with
  | nil =>
    intro s cur _ _ _
    exact ⟨s, cur, rfl⟩
  | cons e es ih =>
    intro s cur hall h1 h2
    obtain ⟨hp, hw⟩ := hall e (List.mem_cons_self e es)
    obtain ⟨s2, cur2, hd⟩ := dispatchEvent_total s cur e hp hw h1 h2
    obtain ⟨_, ⟨t1, ht1⟩, ⟨t2, ht2⟩⟩ := dispatchEvent_extends _ _ _ _ _ hd
    obtain ⟨s', cur', hrun⟩ := ih s2 cur2 (fun f hf => hall f (List.mem_cons_of_mem e hf))
      (by rw [ht1]; simp [h1]) (by rw [ht2]; simp [h2])
    refine ⟨s', cur', ?_⟩
    unfold runEvents
    simp only [hd]
    exact hrun

theorem dispatchPhase_eq (doc : InputDoc) :
    dispatchPhase doc
      = match runEvents (initState doc) (initState doc).boost.channels (all_events doc) with
        | .error err => .error err
        | .ok (s1, _) =>
          .ok { s1 with g1 := extendAdjust (total_duration_ms doc) s1.g1,
                        g2 := extendAdjust (total_duration_ms doc) s1.g2 } := rfl

theorem initState_g1_ne_nil (doc : InputDoc) : (initState doc).g1.plot_data ≠ [] := by
  simp [initState]

theorem initState_g2_ne_nil (doc : InputDoc) : (initState doc).g2.plot_data ≠ [] := by
  simp [initState]

theorem process_total (doc : InputDoc)
    (hall : ∀ e ∈ doc.events, pathOk e = true ∧ wellTyped e = true) :
    ∃ s, process_stimulation_data doc = .ok s := by
  have hall' : ∀ e ∈ all_events doc, pathOk e = true ∧ wellTyped e = true :=
    fun e he => hall e ((sortLe_perm tsLe doc.events).mem_iff.1 he)
  obtain ⟨s', cur', hrun⟩ := runEvents_total (all_events doc) (initState doc)
    (initState doc).boost.channels hall' (initState_g1_ne_nil doc) (initState_g2_ne_nil doc)
  refine ⟨finalizeState { s' with g1 := extendAdjust (total_duration_ms doc) s'.g1,
                                  g2 := extendAdjust (total_duration_ms doc) s'.g2 }, ?_⟩
  unfold process_stimulation_data
  rw [dispatchPhase_eq, hrun]
  rfl

/-! ### Helper facts for the claim theorems -/

theorem gen_setGen (s : EngineState) (gk : GenId) (g : GenState) :
    (s.setGen gk g).gen gk = g := by
  cases gk <;> rfl

theorem process_ok_elim (doc : InputDoc) (s : EngineState)
    (h : process_stimulation_data doc = .ok s) :
    ∃ u, dispatchPhase doc = .ok u ∧ s = finalizeState u := by
  unfold process_stimulation_data at h
  cases hd : dispatchPhase doc with
  | error e =>
    rw [hd] at h
    simp only [Except.map] at h
    exact Except.noConfusion h
  | ok u =>
    rw [hd] at h
    simp only [Except.map] at h
    injection h with h
    exact ⟨u, rfl, h.symm⟩

theorem genStep_intensity_shock (s : EngineState) (cur : Bool × Bool) (ts : ℚ) (gk : GenId)
    (v : ℚ) (hshock : s.boost.shockMode = true) (hmask : maskGet s.boost.channels gk = true) :
    genStep s cur ts gk "intensity" (.num v)
      = .ok (s.setGen gk { s.gen gk with base_intensity := v }, cur) := by
  simp [genStep, hshock, hmask]

/-! ### Claim theorems -/

/-- C3: an intensity-update event processed while its channel is
selected by the override mask and shock mode is active leaves that
channel's series untouched (in particular no sample is appended at the
event's timestamp), while `base_intensity` is still set to the
commanded value. -/
theorem C3_thm (s : EngineState) (cur : Bool × Bool) (gk : GenId) (ts v : ℚ)
    (ty : Option String)
    (hshock : s.boost.shockMode = true) (hmask : maskGet s.boost.channels gk = true) :
    dispatchEvent s cur ⟨some ts, [genName gk, "intensity"], .num v, ty⟩
        = .ok (s.setGen gk { s.gen gk with base_intensity := v }, cur)
      ∧ ((s.setGen gk { s.gen gk with base_intensity := v }).gen gk).plot_data
          = (s.gen gk).plot_data
      ∧ ((s.setGen gk { s.gen gk with base_intensity := v }).gen gk).base_intensity = v := by
  have h := genStep_intensity_shock s cur ts gk v hshock hmask
  refine ⟨?_, ?_, ?_⟩
  · cases gk with
    | g1 => exact h
    | g2 => exact h
  · rw [gen_setGen]
  · rw [gen_setGen]

/-- Witness for C3 at a concrete state with shock mode active and g1
masked. -/
theorem C3_witness :
    dispatchEvent sC3 (false, false) ⟨some 9, [genName .g1, "intensity"], .num 42, none⟩
        = .ok (sC3.setGen .g1 { sC3.gen .g1 with base_intensity := 42 }, (false, false))
      ∧ ((sC3.setGen .g1 { sC3.gen .g1 with base_intensity := 42 }).gen .g1).plot_data
          = (sC3.gen .g1).plot_data
      ∧ ((sC3.setGen .g1 { sC3.gen .g1 with base_intensity := 42 }).gen .g1).base_intensity
          = 42 :=
  C3_thm sC3 (false, false) .g1 9 42 none rfl rfl

/-- C4: a fire event appends exactly one marker `(ts, mask)` carrying
the override channel mask as it stood before the event was processed;
the running mask copy tracks the override mask across every successful
step; and no step rewrites or removes markers already recorded — the
old marker list is always a prefix of the new one. -/
theorem C4_thm :
    (∀ (s : EngineState) (cur : Bool × Bool) (ts : ℚ) (v : Val) (s' : EngineState)
        (cur' : Bool × Bool),
       cur = s.boost.channels →
       dispatchEvent s cur ⟨some ts, ["boost", "fire"], v, some "action"⟩ = .ok (s', cur') →
       s'.fire_events = s.fire_events ++ [(ts, s.boost.channels)] ∧ cur' = cur)
  ∧ (∀ (s : EngineState) (cur : Bool × Bool) (e : RawEvent) (s' : EngineState)
        (cur' : Bool × Bool),
       dispatchEvent s cur e = .ok (s', cur') → cur = s.boost.channels →
       cur' = s'.boost.channels)
  ∧ (∀ (s : EngineState) (cur : Bool × Bool) (e : RawEvent) (s' : EngineState)
        (cur' : Bool × Bool),
       dispatchEvent s cur e = .ok (s', cur') →
       ∃ tl, s'.fire_events = s.fire_events ++ tl) := by
  refine ⟨?_, ?_, ?_⟩
  · intro s cur ts v s' cur' hc h
    have hred : dispatchEvent s cur ⟨some ts, ["boost", "fire"], v, some "action"⟩
        = (fireStep s cur ts).map (fun s2 => (s2, cur)) := rfl
    rw [hred] at h
    cases hf : fireStep s cur ts with
    | error e =>
      rw [hf] at h
      exact Except.noConfusion h
    | ok s2 =>
      rw [hf] at h
      simp only [Except.map] at h
      injection h with h
      injection h with h hcur
      subst h
      obtain ⟨_, hfe, _, _, _, _⟩ := fireStep_parts _ _ _ _ hf
      rw [hc] at hfe
      exact ⟨hfe, hcur.symm⟩
  · intro s cur e s' cur' h hc
    exact dispatchEvent_mask s cur e s' cur' h hc
  · intro s cur e s' cur' h
    exact (dispatchEvent_extends s cur e s' cur' h).1

/-- Witness for C4: a concrete fire event records the pre-event mask,
and the mask and prefix conjuncts hold on a skipped event. -/
theorem C4_witness :
    (sC4'.fire_events = sC4.fire_events ++ [((7 : ℚ), sC4.boost.channels)]
        ∧ ((false, false) : Bool × Bool) = (false, false))
      ∧ ((false, false) : Bool × Bool) = sC4.boost.channels
      ∧ (∃ tl, sC4.fire_events = sC4.fire_events ++ tl) :=
  ⟨C4_thm.1 sC4 (false, false) 7 .null sC4' (false, false) rfl rfl,
   C4_thm.2.1 sC4 (false, false) evNoop sC4 (false, false) rfl rfl,
   C4_thm.2.2 sC4 (false, false) evNoop sC4 (false, false) rfl⟩

/-- C5: whenever the engine returns a finalized state, the series and
adjust series of both channels are non-decreasing in timestamp. -/
theorem C5_thm (doc : InputDoc) (s : EngineState)
    (h : process_stimulation_data doc = .ok s) :
    tsMono s.g1.plot_data ∧ tsMono s.g2.plot_data
      ∧ tsMono s.g1.adjust_plot_data ∧ tsMono s.g2.adjust_plot_data := by
  obtain ⟨u, hu, rfl⟩ := process_ok_elim doc s h
  exact ⟨sortPair_tsMono _, sortPair_tsMono _, sortPair_tsMono _, sortPair_tsMono _⟩

/-- Witness for C5 on the empty document. -/
theorem C5_witness :
    process_stimulation_data docC5w = .ok sC5res
      ∧ (tsMono sC5res.g1.plot_data ∧ tsMono sC5res.g2.plot_data
        ∧ tsMono sC5res.g1.adjust_plot_data ∧ tsMono sC5res.g2.adjust_plot_data) :=
  ⟨rfl, C5_thm docC5w sC5res rfl⟩

/-- C10: every channel's series is seeded with a time-0 sample and only
ever appended to, so it is non-empty at every point during dispatch and
the non-shock fire handler's read of the last series value (index -1)
never fails: running any event list from any initial state never
produces the empty-series index error, and neither does the whole
engine. -/
theorem C10_thm (doc : InputDoc) (evs : List RawEvent) (cur : Bool × Bool) :
    seriesOk (runEvents (initState doc) cur evs) = true
      ∧ notEmptySeriesErr (process_stimulation_data doc) = true := by
  constructor
  · exact runEvents_seriesOk evs (initState doc) cur
      (initState_g1_ne_nil doc) (initState_g2_ne_nil doc)
  · unfold process_stimulation_data
    rw [dispatchPhase_eq]
    cases hr : runEvents (initState doc) (initState doc).boost.channels (all_events doc) with
    | error err =>
      have h := runEvents_seriesOk (all_events doc) (initState doc)
        (initState doc).boost.channels (initState_g1_ne_nil doc) (initState_g2_ne_nil doc)
      rw [hr] at h
      cases err with
      | emptySeries => exact absurd h (by simp [seriesOk])
      | pathIndex => rfl
      | typeErr => rfl
    | ok pr =>
      obtain ⟨s1, cur1⟩ := pr
      rfl

/-- C1 counterexample: on `docC1` the appended g1 samples are
`[(0,0),(5,60),(5,40)]`; the spec's stable sort by timestamp alone
keeps that order, but the finalizer sorts pairs lexicographically and
returns `[(0,0),(5,40),(5,60)]` — equal-timestamp samples are reordered
by value, so ties do not preserve relative insertion order. -/
theorem C1_counterexample :
    (dispatchPhase docC1).map (fun s => s.g1.plot_data)
        = .ok [(0, 0), (5, 60), (5, 40)]
      ∧ sortLe specStableTsLe [((0 : ℚ), (0 : ℚ)), (5, 60), (5, 40)]
        = [(0, 0), (5, 60), (5, 40)]
      ∧ (process_stimulation_data docC1).map (fun s => s.g1.plot_data)
        = .ok [(0, 0), (5, 40), (5, 60)]
      ∧ ([(0, 0), (5, 40), (5, 60)] : List (ℚ × ℚ)) ≠ [(0, 0), (5, 60), (5, 40)] :=
  ⟨rfl, rfl, rfl, by decide⟩

/-- C1 (amended): after finalization each channel's series and adjust
series equal the appended samples sorted lexicographically by
(timestamp, value): each finalized list is a permutation of the samples
appended during dispatch and extension and is pairwise ordered by the
lexicographic pair order — not by a stable sort on timestamp alone. -/
theorem C1_thm (doc : InputDoc) (u : EngineState) (h : dispatchPhase doc = .ok u) :
    process_stimulation_data doc = .ok (finalizeState u)
      ∧ ((finalizeState u).g1.plot_data.Perm u.g1.plot_data
        ∧ lexSorted (finalizeState u).g1.plot_data)
      ∧ ((finalizeState u).g2.plot_data.Perm u.g2.plot_data
        ∧ lexSorted (finalizeState u).g2.plot_data)
      ∧ ((finalizeState u).g1.adjust_plot_data.Perm u.g1.adjust_plot_data
        ∧ lexSorted (finalizeState u).g1.adjust_plot_data)
      ∧ ((finalizeState u).g2.adjust_plot_data.Perm u.g2.adjust_plot_data
        ∧ lexSorted (finalizeState u).g2.adjust_plot_data) := by
  refine ⟨?_, ⟨sortLe_perm _ _, sortPair_pairwise _⟩, ⟨sortLe_perm _ _, sortPair_pairwise _⟩,
    ⟨sortLe_perm _ _, sortPair_pairwise _⟩, ⟨sortLe_perm _ _, sortPair_pairwise _⟩⟩
  unfold process_stimulation_data
  rw [h]
  rfl

/-- Witness for C1's amended statement on `docC1`. -/
theorem C1_witness :
    process_stimulation_data docC1 = .ok (finalizeState uC1)
      ∧ ((finalizeState uC1).g1.plot_data.Perm uC1.g1.plot_data
        ∧ lexSorted (finalizeState uC1).g1.plot_data)
      ∧ ((finalizeState uC1).g2.plot_data.Perm uC1.g2.plot_data
        ∧ lexSorted (finalizeState uC1).g2.plot_data)
      ∧ ((finalizeState uC1).g1.adjust_plot_data.Perm uC1.g1.adjust_plot_data
        ∧ lexSorted (finalizeState uC1).g1.adjust_plot_data)
      ∧ ((finalizeState uC1).g2.adjust_plot_data.Perm uC1.g2.adjust_plot_data
        ∧ lexSorted (finalizeState uC1).g2.adjust_plot_data) :=
  C1_thm docC1 uC1 rfl

/-- C2 counterexample: an event whose path is the single segment
`boost` aborts the run with the `path[1]` index error, so reconstruction
does abort on an event and the dispatcher is not total over one-segment
paths with a recognized head. -/
theorem C2_counterexample : process_stimulation_data docC2bad = .error .pathIndex := rfl

/-- C2 (amended): events with an unrecognized first path segment are
ignored without error, as are recognized namespaces with an unknown
second segment, and the engine runs to completion on every document
whose events avoid one-segment recognized paths and carry
contract-conforming values; but a path that is exactly the single
segment `boost`, `generator1` or `generator2` reproduces the `path[1]`
index error, so the dispatcher is not total over arbitrary event
lists. -/
theorem C2_thm :
    (∀ doc : InputDoc, (∀ e ∈ doc.events, pathOk e = true ∧ wellTyped e = true) →
       ∃ s, process_stimulation_data doc = .ok s)
  ∧ (∀ (s : EngineState) (cur : Bool × Bool) (ts : ℚ) (p0 : String) (rest : List String)
        (v : Val) (ty : Option String),
       ¬(p0 = "boost" ∨ p0 = "generator1" ∨ p0 = "generator2") →
       dispatchEvent s cur ⟨some ts, p0 :: rest, v, ty⟩ = .ok (s, cur))
  ∧ (∀ (s : EngineState) (cur : Bool × Bool) (ts : ℚ) (prop : String) (rest : List String)
        (v : Val) (ty : Option String),
       ¬(prop = "channels" ∨ prop = "shockMode" ∨ prop = "duration" ∨ prop = "offset"
          ∨ prop = "fire") →
       dispatchEvent s cur ⟨some ts, "boost" :: prop :: rest, v, ty⟩ = .ok (s, cur))
  ∧ (∀ (s : EngineState) (cur : Bool × Bool) (ts : ℚ) (gk : GenId) (prop : String)
        (rest : List String) (v : Val) (ty : Option String),
       ¬(prop = "intensity" ∨ prop = "mode" ∨ prop = "adjust") →
       dispatchEvent s cur ⟨some ts, genName gk :: prop :: rest, v, ty⟩ = .ok (s, cur)) := by
  refine ⟨process_total, ?_, ?_, ?_⟩
  · intro s cur ts p0 rest v ty h
    have h1 : ¬ p0 = "boost" := fun hh => h (Or.inl hh)
    have h2 : ¬(p0 = "generator1" ∨ p0 = "generator2") := fun hh => h (Or.inr hh)
    simp [dispatchEvent, h1, h2]
  · intro s cur ts prop rest v ty h
    have h1 : ¬ prop = "channels" := fun hh => h (Or.inl hh)
    have h2 : ¬ prop = "shockMode" := fun hh => h (Or.inr (Or.inl hh))
    have h3 : ¬ prop = "duration" := fun hh => h (Or.inr (Or.inr (Or.inl hh)))
    have h4 : ¬ prop = "offset" := fun hh => h (Or.inr (Or.inr (Or.inr (Or.inl hh))))
    have h5 : ¬ prop = "fire" := fun hh => h (Or.inr (Or.inr (Or.inr (Or.inr hh))))
    simp [dispatchEvent, boostStep, h1, h2, h3, h4, h5]
  · intro s cur ts gk prop rest v ty h
    have h1 : ¬ prop = "intensity" := fun hh => h (Or.inl hh)
    have h2 : ¬ prop = "mode" := fun hh => h (Or.inr (Or.inl hh))
    have h3 : ¬ prop = "adjust" := fun hh => h (Or.inr (Or.inr hh))
    cases gk <;> simp [dispatchEvent, genStep, genName, h1, h2, h3]

/-- Witness for C2: a mixed document runs to completion, and concrete
unknown-path and unknown-field events are ignored in place. -/
theorem C2_witness :
    (∃ s, process_stimulation_data docC2w = .ok s)
      ∧ dispatchEvent stateC2w (false, false) ⟨some 1, ["telemetry", "x"], .null, none⟩
          = .ok (stateC2w, (false, false))
      ∧ dispatchEvent stateC2w (false, false) ⟨some 1, ["boost", "mystery"], .null, none⟩
          = .ok (stateC2w, (false, false))
      ∧ dispatchEvent stateC2w (false, false) ⟨some 1, [genName .g1, "mystery"], .null, none⟩
          = .ok (stateC2w, (false, false)) :=
  ⟨C2_thm.1 docC2w (by decide),
   C2_thm.2.1 stateC2w (false, false) 1 "telemetry" ["x"] .null none (by decide),
   C2_thm.2.2.1 stateC2w (false, false) 1 "mystery" [] .null none (by decide),
   C2_thm.2.2.2 stateC2w (false, false) 1 .g1 "mystery" [] .null none (by decide)⟩

/-- C6 counterexample: with declared duration -5 and a single event at
time -3 the resolved session end is -3, which is negative, while the
claimed formula max(declared, max timestamp, 0) would give 0 — the
code's bound carries no 0 floor once the event list is non-empty. -/
theorem C6_counterexample :
    total_duration_ms docC6 = -3
      ∧ total_duration_ms docC6 < 0
      ∧ maxQ (maxQ (-5 : ℚ) (-3)) 0 = 0 :=
  ⟨rfl, by decide, by decide⟩

/-- C6 (amended): the session end equals the maximum of the declared
duration (0 when absent) and the per-event timestamps (0 for a missing
timestamp): it bounds them all and is attained by one of them; the
claimed extra 0 term enters only through the defaults — on an empty
event list the bound is max(declared, 0), but with events present the
result is not floored at 0 and can be negative. -/
theorem C6_thm (doc : InputDoc) :
    doc.duration.getD 0 ≤ total_duration_ms doc
      ∧ (∀ e ∈ doc.events, tsKey e ≤ total_duration_ms doc)
      ∧ (doc.events = [] → total_duration_ms doc = maxQ (doc.duration.getD 0) 0)
      ∧ (total_duration_ms doc = doc.duration.getD 0
          ∨ (∃ e ∈ doc.events, total_duration_ms doc = tsKey e)
          ∨ doc.events = []) := by
  refine ⟨le_maxQ_left _ _, ?_, ?_, ?_⟩
  · intro e he
    exact le_trans (maxTs_bound doc.events e he) (le_maxQ_right _ _)
  · intro h
    unfold total_duration_ms
    rw [h]
    rfl
  · rcases maxQ_cases (doc.duration.getD 0) (maxTsInData doc.events) with hc | hc
    · exact Or.inl hc
    · cases hev : doc.events with
      | nil => exact Or.inr (Or.inr rfl)
      | cons e es =>
        rw [hev] at hc
        obtain ⟨f, hf, hfe⟩ := maxTs_attained (e :: es) (List.cons_ne_nil e es)
        refine Or.inr (Or.inl ⟨f, hf, ?_⟩)
        have htot : total_duration_ms doc
            = maxQ (doc.duration.getD 0) (maxTsInData (e :: es)) := by
          unfold total_duration_ms
          rw [hev]
        rw [htot, hc, hfe]

/-- Witness for C6 on a document with declared duration 3 and one event
at time 7. -/
theorem C6_witness :
    docC6w.duration.getD 0 ≤ total_duration_ms docC6w
      ∧ tsKey evC6w ≤ total_duration_ms docC6w
      ∧ total_duration_ms docC6w = 7 :=
  ⟨(C6_thm docC6w).1, (C6_thm docC6w).2.1 evC6w (by decide), rfl⟩

/-- C7: two event lists in which, for every timestamp, the subsequence
of events carrying that timestamp is identical — i.e. permutations of
each other that preserve the relative order of equal-timestamp events —
drive the engine to identical outputs: the finalized series, adjust
series, mode timelines and marker lists all agree, through the stable
timestamp sort. -/
theorem C7_thm (dur : Option ℚ) (g1i g2i : GenInit) (bi : BoostInit)
    (l1 l2 : List RawEvent)
    (hsame : ∀ t : ℚ, l1.filter (fun e => decide (tsKey e = t))
      = l2.filter (fun e => decide (tsKey e = t))) :
    process_stimulation_data ⟨dur, g1i, g2i, bi, l1⟩
      = process_stimulation_data ⟨dur, g1i, g2i, bi, l2⟩ := by
  have hsort : sortLe tsLe l1 = sortLe tsLe l2 :=
    sortKey_eq_of_filter_eq tsKey l1 l2 hsame
  have hperm : l1.Perm l2 :=
    (sortLe_perm tsLe l1).symm.trans (by rw [hsort]; exact sortLe_perm tsLe l2)
  have hmax : maxTsInData l1 = maxTsInData l2 := maxTs_perm l1 l2 hperm
  have hdur1 : total_duration_ms ⟨dur, g1i, g2i, bi, l1⟩
      = maxQ (dur.getD 0) (maxTsInData l1) := rfl
  have hdur2 : total_duration_ms ⟨dur, g1i, g2i, bi, l2⟩
      = maxQ (dur.getD 0) (maxTsInData l2) := rfl
  have hall1 : all_events ⟨dur, g1i, g2i, bi, l1⟩ = sortLe tsLe l1 := rfl
  have hall2 : all_events ⟨dur, g1i, g2i, bi, l2⟩ = sortLe tsLe l2 := rfl
  have hinit : initState ⟨dur, g1i, g2i, bi, l1⟩ = initState ⟨dur, g1i, g2i, bi, l2⟩ := rfl
  unfold process_stimulation_data
  rw [dispatchPhase_eq, dispatchPhase_eq, hdur1, hdur2, hall1, hall2, hinit, hsort, hmax]

/-- Witness for C7: swapping two events with distinct timestamps leaves
the whole engine output unchanged. -/
theorem C7_witness :
    process_stimulation_data
        ⟨none, emptyGenInit, emptyGenInit, emptyBoostInit, [evC7a, evC7b]⟩
      = process_stimulation_data
        ⟨none, emptyGenInit, emptyGenInit, emptyBoostInit, [evC7b, evC7a]⟩ :=
  C7_thm none emptyGenInit emptyGenInit emptyBoostInit [evC7a, evC7b] [evC7b, evC7a] (by
    intro t
    by_cases h1 : tsKey evC7a = t
    · have h2 : ¬ tsKey evC7b = t := by
        rw [← h1]
        decide
      simp [List.filter_cons, h1, h2]
    · by_cases h2 : tsKey evC7b = t
      · simp [List.filter_cons, h1, h2]
      · simp [List.filter_cons, h1, h2])

/-- C8 counterexample: on a missing input file the program prints its
one-line diagnostic and writes no image, but `plot_stimulation_data`
returns normally and the process exits with status 0, not non-zero; and
load failures are not the only fatal conditions either — a loaded
document on which the engine raises (a one-segment `boost` path) makes
the interpreter print a traceback and exit non-zero. -/
theorem C8_counterexample :
    mainEntry 3 .fileNotFound = ⟨0, .oneLine, false⟩
      ∧ (mainEntry 3 .fileNotFound).exitCode = 0
      ∧ mainEntry 3 (.okDoc docC8crash) = ⟨1, .traceback, false⟩ :=
  ⟨rfl, rfl, rfl⟩

/-- C8 (amended): on a missing file or malformed JSON the program
prints a one-line diagnostic and writes no output image, but exits with
status 0 rather than non-zero; and those are not the only fatal
conditions: fewer than three argv entries print the usage line and exit
1, and a loaded document on which the engine raises aborts with a
traceback and exit status 1, writing no image.  The image is written
exactly on the runs where the engine completes. -/
theorem C8_thm :
    (∀ (argc : Nat) (load : LoadResult), argc < 3 →
        mainEntry argc load = ⟨1, .oneLine, false⟩)
  ∧ (∀ argc : Nat, ¬ argc < 3 →
        mainEntry argc .fileNotFound = ⟨0, .oneLine, false⟩
          ∧ mainEntry argc .jsonError = ⟨0, .oneLine, false⟩)
  ∧ (∀ (argc : Nat) (doc : InputDoc) (err : EngErr), ¬ argc < 3 →
        process_stimulation_data doc = .error err →
        mainEntry argc (.okDoc doc) = ⟨1, .traceback, false⟩)
  ∧ (∀ (argc : Nat) (doc : InputDoc) (s : EngineState), ¬ argc < 3 →
        process_stimulation_data doc = .ok s →
        mainEntry argc (.okDoc doc) = ⟨0, .silent, true⟩) := by
  refine ⟨?_, ?_, ?_, ?_⟩
  · intro argc load h
    simp [mainEntry, h]
  · intro argc h
    constructor <;> simp [mainEntry, h, plot_stimulation_data]
  · intro argc doc err h hp
    simp [mainEntry, h, plot_stimulation_data, hp]
  · intro argc doc s h hp
    simp [mainEntry, h, plot_stimulation_data, hp]

/-- Witness for C8 at concrete argument counts and documents, covering
the usage exit, both load-error exits, the engine-crash exit and the
successful run. -/
theorem C8_witness :
    mainEntry 1 .jsonError = ⟨1, .oneLine, false⟩
      ∧ (mainEntry 3 .fileNotFound = ⟨0, .oneLine, false⟩
        ∧ mainEntry 3 .jsonError = ⟨0, .oneLine, false⟩)
      ∧ mainEntry 3 (.okDoc docC8crash) = ⟨1, .traceback, false⟩
      ∧ mainEntry 3 (.okDoc docC5w) = ⟨0, .silent, true⟩ :=
  ⟨C8_thm.1 1 .jsonError (by decide), C8_thm.2.1 3 (by decide),
   C8_thm.2.2.1 3 docC8crash .pathIndex (by decide) rfl,
   C8_thm.2.2.2 3 docC5w sC5res (by decide) rfl⟩

/-- C9 counterexample: a present but falsy initial mode (the number 0)
leaves the mode timeline empty instead of seeding the claimed single
entry at time 0. -/
theorem C9_counterexample :
    docC9.gen1.mode = some (Val.num 0)
      ∧ (initState docC9).modes_g1 = []
      ∧ ([] : List (ℚ × Val)) ≠ [((0 : ℚ), Val.num 0)] :=
  ⟨rfl, rfl, by decide⟩

/-- C9 (amended): a channel's mode timeline is seeded with exactly one
entry at time 0 iff the initial mode field is present and truthy in the
Python sense; a present falsy value (0, false, the empty string, null)
leaves the timeline empty, exactly as an absent field does. -/
theorem C9_thm (doc : InputDoc) :
    (∀ v, doc.gen1.mode = some v → v.truthy = true →
        (initState doc).modes_g1 = [((0 : ℚ), v)])
  ∧ (∀ v, doc.gen1.mode = some v → v.truthy = false → (initState doc).modes_g1 = [])
  ∧ (doc.gen1.mode = none → (initState doc).modes_g1 = [])
  ∧ (∀ v, doc.gen2.mode = some v → v.truthy = true →
        (initState doc).modes_g2 = [((0 : ℚ), v)])
  ∧ (∀ v, doc.gen2.mode = some v → v.truthy = false → (initState doc).modes_g2 = [])
  ∧ (doc.gen2.mode = none → (initState doc).modes_g2 = []) := by
  refine ⟨?_, ?_, ?_, ?_, ?_, ?_⟩
  · intro v hm ht
    simp [initState, hm, ht]
  · intro v hm ht
    simp [initState, hm, ht]
  · intro hm
    simp [initState, hm]
  · intro v hm ht
    simp [initState, hm, ht]
  · intro v hm ht
    simp [initState, hm, ht]
  · intro hm
    simp [initState, hm]

/-- Witness for C9: a truthy initial mode seeds one entry at time 0
while a falsy one leaves the timeline empty. -/
theorem C9_witness :
    (initState docC9w).modes_g1 = [((0 : ℚ), Val.str "calm")]
      ∧ (initState docC9w).modes_g2 = [] :=
  ⟨(C9_thm docC9w).1 (Val.str "calm") rfl (by decide),
   (C9_thm docC9w).2.2.2.2.1 (Val.bool false) rfl rfl⟩
